import Mathlib

/-!
# Verification of the JobPilot Job Scoring & Tiering Engine

A shallow embedding of the scoring pipeline of `core/ranker.py` (with the
helpers it uses from `core/immigration.py`, `core/networking.py`, and the
text normalizer `clean_text` of `core/ats_scorer.py`), together with
theorems settling the frozen claims about the engine.

Modelling conventions:
* Python `str` is modelled by Lean `String`; all text predicates of the
  source are ASCII substring checks, so `Char.toLower`, `Char.isAlphanum`
  and an explicit ASCII whitespace predicate model `str.lower`, `\w`
  (minus the underscore, which is added explicitly) and `\s` faithfully on
  the ASCII plane the source works in.
* Python `float` is modelled by `ℚ` together with an explicit binary64
  rounding operator `fl : ℚ → ℚ` (round to nearest, ties to even, 53-bit
  significand; the inputs of this program never reach the subnormal or
  overflow range, so the normal-range formula is the exact IEEE-754
  semantics).  Every arithmetic operation of a float expression of the
  source is wrapped in `fl` at the same place the source performs it.
  `round(x, 1)` / `round(x)` of CPython produce the decimal value nearest
  to the binary value of `x`, ties to even; they are modelled by `pyRound1`
  and `pyRoundInt` on the exact rational value of the double.  (CPython
  stores the result of `round(x, 1)` as the double nearest that decimal;
  at the 0.1 granularity of the totals that conversion can change neither
  a comparison against 75/55 nor the order or equality of two totals, so
  the decimal itself is carried.)
* Salary arithmetic (`score_salary`) carries no rounding step and is
  compared against coarse thresholds, so it is modelled exactly over `ℚ`.
* Python dicts that only collect explanation strings are modelled as
  association lists in insertion order.  Quote characters inside those
  strings are not reproduced.
-/

/-! ## Python text primitives -/

/-- ASCII whitespace, the characters matched by Python `\s` / stripped by
`str.strip()` on ASCII text. -/
def pySpace (c : Char) : Bool :=
  c == ' ' || c == '\t' || c == '\n' || c == '\x0d' || c == '\x0b' || c == '\x0c'

/-- Python `str.lower()` (ASCII plane). -/
def pyLower (s : String) : String :=
  String.mk (s.toList.map Char.toLower)

/-- Python `str.strip()` on a character list. -/
def stripChars (l : List Char) : List Char :=
  ((l.dropWhile pySpace).reverse.dropWhile pySpace).reverse

/-- Python `str.strip()`. -/
def pyStrip (s : String) : String :=
  String.mk (stripChars s.toList)

/-- Contiguous sublist test on character lists. -/
def listInfix (n : List Char) : List Char → Bool
  | [] => n.isEmpty
  | c :: t => n.isPrefixOf (c :: t) || listInfix n t

/-- Python `needle in haystack` on strings: contiguous substring test. -/
def subStr (needle haystack : String) : Bool :=
  listInfix needle.toList haystack.toList

/-- Python `not s.strip()`: the string is empty or all whitespace. -/
def isBlank (s : String) : Bool :=
  (pyStrip s) == ""

/-! ## Binary64 model over `ℚ` -/

/-- Round a rational to the nearest integer, ties to even. -/
def rhe (q : ℚ) : ℤ :=
  if q - ⌊q⌋ < 1/2 then ⌊q⌋
  else if 1/2 < q - ⌊q⌋ then ⌊q⌋ + 1
  else if ⌊q⌋ % 2 = 0 then ⌊q⌋ else ⌊q⌋ + 1

/-- Binary64 rounding of a positive rational: round the significand to 53
bits, nearest, ties to even. -/
def flPos (x : ℚ) : ℚ :=
  (rhe (x * 2 ^ ((52 : ℤ) - Int.log 2 x)) : ℚ) * 2 ^ (Int.log 2 x - (52 : ℤ))

/-- Binary64 rounding (normal range; this program never leaves it). -/
def fl (x : ℚ) : ℚ :=
  if 0 < x then flPos x else if x < 0 then -flPos (-x) else 0

/-- CPython `round(x, 1)` on the exact value of a double: nearest multiple
of `1/10`, ties to even. -/
def pyRound1 (x : ℚ) : ℚ :=
  (rhe (10 * x) : ℚ) / 10

/-- CPython `round(x)` on the exact value of a double: nearest integer,
ties to even. -/
def pyRoundInt (x : ℚ) : ℤ :=
  rhe x

/-! ### Basic facts about `rhe` and `fl` -/

theorem rhe_ge_floor (q : ℚ) : ⌊q⌋ ≤ rhe q := by
  unfold rhe
  split
  · exact le_refl _
  · split
    · exact le_of_lt (lt_add_one _)
    · split
      · exact le_refl _
      · exact le_of_lt (lt_add_one _)

theorem rhe_le_ceil (q : ℚ) : rhe q ≤ ⌊q⌋ + 1 := by
  unfold rhe
  split
  · exact le_of_lt (lt_add_one _)
  · split
    · exact le_refl _
    · split
      · exact le_of_lt (lt_add_one _)
      · exact le_refl _

theorem rhe_abs (q : ℚ) : |(rhe q : ℚ) - q| ≤ 1/2 := by
  have hfl : (⌊q⌋ : ℚ) ≤ q := Int.floor_le q
  have hfu : q < ⌊q⌋ + 1 := Int.lt_floor_add_one q
  unfold rhe
  split
  · rw [abs_le]; constructor <;> linarith
  · split
    · rw [abs_le]; constructor <;> push_cast <;> linarith
    · have h1 : ¬ (q - ⌊q⌋ < 1/2) := by assumption
      have h2 : ¬ (1/2 < q - ⌊q⌋) := by assumption
      have h3 : q - ⌊q⌋ = 1/2 := le_antisymm (not_lt.mp h2) (not_lt.mp h1)
      split
      · rw [abs_le]; constructor <;> linarith
      · rw [abs_le]; constructor <;> push_cast <;> linarith

theorem rhe_nonneg (q : ℚ) (hq : 0 ≤ q) : 0 ≤ rhe q := by
  have := rhe_ge_floor q
  have : (0 : ℤ) ≤ ⌊q⌋ := Int.floor_nonneg.mpr hq
  omega

theorem rhe_eq_of_abs_lt (q : ℚ) (n : ℤ) (h : |q - n| < 1/2) : rhe q = n := by
  rw [abs_lt] at h
  have h1 : (n : ℚ) - 1/2 < q := by linarith [h.1]
  have h2 : q < (n : ℚ) + 1/2 := by linarith [h.2]
  have hfl : (⌊q⌋ : ℚ) ≤ q := Int.floor_le q
  have hfu : q < ⌊q⌋ + 1 := Int.lt_floor_add_one q
  -- `⌊q⌋` is either `n` or `n - 1`
  have hn : ⌊q⌋ = n ∨ ⌊q⌋ = n - 1 := by
    have hl : (n : ℤ) - 1 ≤ ⌊q⌋ := by
      have := Int.le_floor.mpr (by push_cast; linarith : ((n - 1 : ℤ) : ℚ) ≤ q)
      omega
    have hu : ⌊q⌋ ≤ n := by
      have : ⌊q⌋ < n + 1 := Int.floor_lt.mpr (by push_cast; linarith)
      omega
    omega
  unfold rhe
  rcases hn with hn | hn
  · rw [hn]
    rw [if_pos]
    linarith
  · rw [hn]
    rw [if_neg, if_pos]
    · omega
    · push_cast; linarith
    · push_cast; linarith

theorem fl_zero : fl 0 = 0 := by simp [fl]

theorem fl_nonneg (x : ℚ) (hx : 0 ≤ x) : 0 ≤ fl x := by
  unfold fl
  split
  · unfold flPos
    have h1 : 0 ≤ x * 2 ^ ((52 : ℤ) - Int.log 2 x) := by positivity
    have h2 : (0 : ℤ) ≤ rhe _ := rhe_nonneg _ h1
    positivity
  · split
    · linarith [‹x < 0›, hx]
    · exact le_refl 0

/-- The fundamental relative error bound of binary64 rounding:
for nonnegative inputs, `fl x` is within `x * 2 ^ (-53)` of `x`. -/
theorem fl_abs (x : ℚ) (hx : 0 ≤ x) : |fl x - x| ≤ x * 2 ^ (-(53 : ℤ)) := by
  rcases eq_or_lt_of_le hx with h | h
  · rw [← h, fl_zero]; norm_num
  · unfold fl
    rw [if_pos h]
    unfold flPos
    set e := Int.log 2 x with he
    have hle : (2 : ℚ) ^ e ≤ x := Int.zpow_log_le_self (by norm_num) h
    have hq := rhe_abs (x * 2 ^ ((52 : ℤ) - e))
    have hpow2 : (0 : ℚ) < 2 ^ (e - (52 : ℤ)) := by positivity
    have hmul : (2 : ℚ) ^ ((52 : ℤ) - e) * 2 ^ (e - (52 : ℤ)) = 1 := by
      rw [← zpow_add₀ (by norm_num : (2 : ℚ) ≠ 0)]
      norm_num
    have hback : x * 2 ^ ((52 : ℤ) - e) * 2 ^ (e - (52 : ℤ)) = x := by
      rw [mul_assoc, hmul, mul_one]
    have key : (rhe (x * 2 ^ ((52 : ℤ) - e)) : ℚ) * 2 ^ (e - (52 : ℤ)) - x
        = ((rhe (x * 2 ^ ((52 : ℤ) - e)) : ℚ) - x * 2 ^ ((52 : ℤ) - e)) * 2 ^ (e - (52 : ℤ)) := by
      rw [sub_mul, hback]
    rw [key, abs_mul, abs_of_pos hpow2]
    calc |(rhe (x * 2 ^ ((52 : ℤ) - e)) : ℚ) - x * 2 ^ ((52 : ℤ) - e)| * 2 ^ (e - (52 : ℤ))
        ≤ (1/2) * 2 ^ (e - (52 : ℤ)) := by
          exact mul_le_mul_of_nonneg_right hq (le_of_lt hpow2)
      _ = 2 ^ e * 2 ^ (-(53 : ℤ)) := by
          rw [← zpow_add₀ (by norm_num : (2 : ℚ) ≠ 0)]
          rw [show e - (52 : ℤ) = e + -(53 : ℤ) + 1 by ring]
          rw [zpow_add₀ (by norm_num : (2 : ℚ) ≠ 0)]
          ring
      _ ≤ x * 2 ^ (-(53 : ℤ)) := by
          exact mul_le_mul_of_nonneg_right hle (by positivity)

theorem int_log_eq (x : ℚ) (e : ℤ) (hx : 0 < x)
    (h1 : (2 : ℚ) ^ e ≤ x) (h2 : x < (2 : ℚ) ^ (e + 1)) : Int.log 2 x = e := by
  have hb : (1 : ℕ) < 2 := by norm_num
  have hle : e ≤ Int.log 2 x := by
    rw [← Int.zpow_le_iff_le_log hb hx]
    exact_mod_cast h1
  have hlt : Int.log 2 x < e + 1 := by
    rw [← Int.lt_zpow_iff_log_lt hb hx]
    exact_mod_cast h2
  omega

/-- Evaluate `fl` at a concrete positive rational from its binade `e` and
the rounded significand `m`. -/
theorem fl_eval (x : ℚ) (e m : ℤ) (hx : 0 < x)
    (h1 : (2 : ℚ) ^ e ≤ x) (h2 : x < (2 : ℚ) ^ (e + 1))
    (hm : rhe (x * 2 ^ ((52 : ℤ) - e)) = m) :
    fl x = (m : ℚ) * 2 ^ (e - (52 : ℤ)) := by
  unfold fl
  rw [if_pos hx]
  unfold flPos
  rw [int_log_eq x e hx h1 h2, hm]

theorem rhe_intCast (n : ℤ) : rhe (n : ℚ) = n := by
  apply rhe_eq_of_abs_lt
  simp

/-! ## Data model

A `Job` models the posting dict of the source: the base fields the engine
reads and the derived fields `rank_job` attaches (absent dict keys are the
default values used by the corresponding `job.get` calls). -/

structure Job where
  title : String := ""
  company : String := ""
  location : String := ""
  description : String := ""
  job_type : String := ""
  salary_min : ℚ := 0
  salary_max : ℚ := 0
  salary_interval : String := "yearly"
  noc_code : String := ""
  noc_description : String := ""
  score_skills : ℤ := 0
  score_immigration : ℤ := 0
  score_salary : ℤ := 0
  score_company : ℤ := 0
  score_success : ℤ := 0
  score_interview : ℤ := 0
  score_total : ℚ := 0
  priority : String := ""
  bcpnp_eligible : ℤ := 0
  tier : String := ""
  networking_score : ℤ := 0
  networking_notes : List String := []
  success_details : List (String × String) := []
  interview_format_details : List (String × String) := []
  deriving DecidableEq, Repr

/-- The four user skill-proficiency sets of the taxonomy
(`_load_skill_sets`), passed to the skills scorer. -/
structure SkillSets where
  strong : List String := []
  moderate : List String := []
  emerging : List String := []
  weak : List String := []
  deriving DecidableEq, Repr

/-! ## Static company / keyword tables (`core/ranker.py`) -/

def COMPANY_TIERS_tier1 : List String :=
  ["amazon", "google", "microsoft", "meta", "apple", "nvidia",
   "salesforce", "shopify", "stripe", "databricks", "snowflake",
   "openai", "anthropic", "cohere", "hugging face",
   "lululemon", "hootsuite", "slack", "mastercard",
   "deloitte", "mckinsey", "bcg", "bain", "accenture", "pwc", "ey", "kpmg",
   "rbc", "td", "bmo", "scotiabank", "cibc",
   "telus", "shaw", "bc hydro"]

def COMPANY_TIERS_tier2 : List String :=
  ["clio", "bench", "dapper labs", "trulioo", "later",
   "absolute software", "d-wave", "1password",
   "thinkific", "procurify", "vidyard", "freshbooks",
   "vancouver coastal health", "phsa", "bc cancer",
   "fortinet", "borealis ai"]

def TIER1_COMPANIES : List String :=
  ["amazon", "google", "microsoft", "meta", "apple", "netflix",
   "lululemon", "shopify", "rbc", "td", "bmo", "cibc", "scotiabank",
   "telus", "bchydro", "bc hydro", "deloitte", "pwc", "ey", "kpmg",
   "mckinsey", "bain", "bcg", "accenture"]

def SMALL_COMPANIES_OR_STARTUPS : List String :=
  ["bench", "clio", "hootsuite", "later", "absolute", "d-wave",
   "copperleaf", "eventbase", "finger food", "grow"]

def IMMIGRANT_FRIENDLY_COMPANIES : List String :=
  ["amazon", "microsoft", "google", "meta", "apple",
   "shopify", "clio", "d-wave", "hootsuite",
   "rbc", "td", "deloitte", "ey", "pwc", "kpmg",
   "phsa", "vancouver coastal health", "bc cancer"]

def LIVE_CODING_COMPANIES : List String :=
  ["google", "meta", "amazon", "apple", "netflix",
   "microsoft", "uber", "airbnb", "stripe", "doordash", "instacart",
   "databricks", "snowflake", "palantir", "linkedin"]

def TAKEHOME_COMPANIES : List String :=
  ["hootsuite", "later", "clio", "bench", "copperleaf",
   "visier", "absolute", "eventbase", "finger food",
   "grow", "thinkific", "trulioo", "benevity",
   "lululemon", "aritzia", "london drugs",
   "translink", "icbc", "bc hydro", "worksafe",
   "first west", "vancity", "coast capital",
   "phsa", "vancouver coastal health", "bc cancer",
   "city of vancouver",
   "deloitte", "ey", "kpmg", "accenture", "bdo",
   "bain", "bcg",
   "rbc", "td", "bmo", "cibc", "scotiabank", "hsbc"]

/-! ## `core/immigration.py` -/

def BCPNP_TECH_NOCS : List String :=
  ["20012", "21211", "21220", "21221", "21222", "21223", "21230",
   "21231", "21232", "21233", "21234", "21311", "22220", "22222"]

def NOC_DESCRIPTIONS : List (String × String) :=
  [("20012", "Computer and Information Systems Managers"),
   ("21211", "Data Scientists"),
   ("21220", "Cybersecurity Specialists"),
   ("21221", "Business Systems Specialists"),
   ("21222", "Information Systems Specialists"),
   ("21223", "Database Analysts and Data Administrators"),
   ("21230", "Computer Systems Developers and Programmers"),
   ("21231", "Software Engineers and Designers"),
   ("21232", "Software Developers"),
   ("21233", "Web Designers"),
   ("21234", "Web Developers and Programmers"),
   ("21311", "Computer Engineers"),
   ("22220", "Computer Network and Web Technicians"),
   ("22222", "Information Systems Testing Technicians"),
   ("11201", "Professional Occupations in Business Management Consulting")]

/-- `TITLE_TO_NOC` dict; iteration order of a Python dict is insertion
order, so this is an ordered association list. -/
def TITLE_TO_NOC : List (String × String) :=
  [("data scientist", "21211"), ("machine learning", "21211"),
   ("applied scientist", "21211"), ("research scientist", "21211"),
   ("ai engineer", "21211"), ("ai scientist", "21211"),
   ("deep learning", "21211"), ("nlp engineer", "21211"),
   ("data analyst", "21223"), ("business intelligence", "21223"),
   ("bi analyst", "21223"), ("database", "21223"),
   ("analytics engineer", "21223"),
   ("product manager", "20012"), ("technical product manager", "20012"),
   ("program manager", "20012"), ("it project manager", "20012"),
   ("analytics manager", "20012"),
   ("business analyst", "21221"), ("systems analyst", "21221"),
   ("product analyst", "21221"), ("ai consultant", "21221"),
   ("insights analyst", "21221"),
   ("management consultant", "11201"), ("strategy consultant", "11201"),
   ("consultant", "11201"),
   ("cybersecurity", "21220"), ("security analyst", "21220"),
   ("security engineer", "21220"), ("information security", "21220"),
   ("soc analyst", "21220"), ("threat analyst", "21220"),
   ("software engineer", "21231"), ("software developer", "21231"),
   ("data engineer", "21231"), ("ml engineer", "21231"),
   ("backend engineer", "21231"),
   ("full stack", "21232"),
   ("frontend engineer", "21234"), ("web developer", "21234")]

/-- `NOC_DESCRIPTIONS.get(noc, "")`. -/
def nocDescLookup (noc : String) : String :=
  ((NOC_DESCRIPTIONS.find? (fun kv => kv.1 == noc)).map Prod.snd).getD ""

/-- `guess_noc_from_title`. -/
def guess_noc_from_title (title : String) : String × String :=
  match TITLE_TO_NOC.find? (fun kv => subStr kv.1 (pyStrip (pyLower title))) with
  | some kv => (kv.2, nocDescLookup kv.2)
  | none => ("", "")

/-- `is_bcpnp_eligible`. -/
def is_bcpnp_eligible (noc_code : String) : Bool :=
  BCPNP_TECH_NOCS.contains noc_code

def bc_indicators : List String :=
  ["vancouver", "burnaby", "surrey", "richmond", "bc",
   "british columbia", "victoria", "kelowna", "kamloops",
   "nanaimo", "new westminster", "coquitlam", "langley",
   "abbotsford", "north vancouver", "west vancouver"]

/-- `check_location_bc`. -/
def check_location_bc (location : String) : Bool :=
  if location == "" then false
  else bc_indicators.any (fun ind => subStr ind (pyLower location))

/-! ## `core/networking.py` (the part the ranker consumes: the
networking score and tips; the LinkedIn search URL list is not read by
the ranker and is not modelled) -/

def HIGH_CHINESE_PRESENCE : List String :=
  ["amazon", "microsoft", "google", "meta", "apple", "shopify",
   "huawei", "tencent", "alibaba", "bytedance",
   "rbc", "td", "bmo", "deloitte", "pwc", "ey", "kpmg",
   "sap", "visier", "d-wave", "hootsuite"]

def MEDIUM_PRESENCE : List String :=
  ["telus", "fortinet", "absolute", "bench", "clio"]

structure NetworkingIntel where
  networking_score : ℤ
  networking_tips : List String
  deriving DecidableEq, Repr

/-- `generate_networking_intel` (score and tips). -/
def generate_networking_intel (company : String) : NetworkingIntel :=
  let company_clean := pyStrip company
  let tips :=
    ["1. Search for PKU/NYIT alumni at " ++ company_clean ++
       " — they are most likely to accept your connection request",
     "2. Look for Chinese-origin data scientists at " ++ company_clean ++
       " — they understand the challenge of breaking into the Canadian market",
     "3. Check if anyone in the DS team at " ++ company_clean ++
       " previously worked at Uber or PwC — shared experience is a strong networking hook",
     "4. When connecting, mention specific things: your PKU math background, Uber growth analytics experience, or PwC cross-border M&A work"]
  let company_lower := pyLower company_clean
  let bonus : ℤ :=
    if HIGH_CHINESE_PRESENCE.any (fun c => subStr c company_lower) then 10
    else if MEDIUM_PRESENCE.any (fun c => subStr c company_lower) then 5
    else 2
  ⟨bonus, tips⟩

/-! ## Dimension scorers -/

/-- Binary64 value of the Python literal `0.7`. -/
def lit07 : ℚ := fl (7/10)

/-- Binary64 value of the Python literal `0.4`. -/
def lit04 : ℚ := fl (2/5)

/-- Binary64 value of the Python literal `0.1`. -/
def lit01 : ℚ := fl (1/10)

/-- The float numerator of `score_skills_match`:
`strong*1.0 + moderate*0.7 + emerging*0.4 + weak*0.1` with every
operation (and each int-to-double conversion) rounded to binary64. -/
def skillsNum (s m e w : ℕ) : ℚ :=
  fl (fl (fl (fl (s : ℚ) * 1) + fl (fl (m : ℚ) * lit07)) + fl (fl (e : ℚ) * lit04))
    + fl (fl (w : ℚ) * lit01)

/-- The float expression of `score_skills_match`:
`(strong*1.0 + moderate*0.7 + emerging*0.4 + weak*0.1) / total_mentioned * 100`
in binary64 arithmetic. -/
def skillsRaw (s m e w total : ℕ) : ℚ :=
  fl (fl (fl (skillsNum s m e w) / fl (total : ℚ)) * 100)

/-- Number of taxonomy phrases of one tier found in the search surface
(`sum(1 for s in skill_sets[tier] if s in job_text)`). -/
def countMatches (keys : List String) (job_text : String) : ℕ :=
  (keys.filter (fun k => subStr k job_text)).length

/-- `score_skills_match`. -/
def score_skills_match (title description : String) (ss : SkillSets) : ℤ :=
  let job_text := pyLower (title ++ " " ++ description)
  if isBlank job_text then 50
  else
    let strong_matches := countMatches ss.strong job_text
    let moderate_matches := countMatches ss.moderate job_text
    let emerging_matches := countMatches ss.emerging job_text
    let weak_matches := countMatches ss.weak job_text
    let total_mentioned := strong_matches + moderate_matches + emerging_matches + weak_matches
    if total_mentioned = 0 then 50
    else
      min 100 (max 0 (pyRoundInt
        (skillsRaw strong_matches moderate_matches emerging_matches weak_matches total_mentioned)))

def priority_titles : List String :=
  ["data scientist", "machine learning", "ml engineer",
   "cybersecurity", "security analyst", "security engineer",
   "software engineer", "software developer",
   "data analyst", "data engineer", "analytics",
   "ai", "artificial intelligence",
   "product manager", "business analyst", "consultant"]

/-- `score_immigration_fit` (pure integer arithmetic in the source). -/
def score_immigration_fit (title description location job_type noc_code : String) : ℤ :=
  let title_lower := pyLower title
  let desc_lower := pyLower description
  let jtype_lower := pyLower job_type
  let noc_pts : ℤ := if noc_code ≠ "" ∧ BCPNP_TECH_NOCS.contains noc_code then 30 else 0
  let title_pts : ℤ := if priority_titles.any (fun pt => subStr pt title_lower) then 10 else 0
  let loc_pts : ℤ :=
    if check_location_bc location then 10
    else if location ≠ "" ∧ subStr "remote" (pyLower location) then 5
    else if location ≠ "" ∧ subStr "canada" (pyLower location) then 3
    else 0
  let jtype_pts : ℤ :=
    if subStr "full" jtype_lower || subStr "permanent" jtype_lower then 5
    else if subStr "contract" jtype_lower || subStr "temporary" jtype_lower then -15
    else 0
  let desc_pts : ℤ :=
    if subStr "permanent" desc_lower || subStr "full-time" desc_lower then 5 else 0
  let sen_pts : ℤ :=
    if subStr "senior" title_lower && !subStr "staff" title_lower
        && !subStr "principal" title_lower then 5
    else if subStr "lead" title_lower then 3
    else if subStr "junior" title_lower || subStr "entry" title_lower then -5
    else 0
  min 100 (max 0 (50 + noc_pts + title_pts + loc_pts + jtype_pts + desc_pts + sen_pts))

/-- `score_salary`.  The source works in floats but performs only a sum,
a halving and a product compared against coarse thresholds; it is
modelled exactly over `ℚ`. -/
def score_salary (salary_min salary_max : ℚ) (interval : String) : ℤ :=
  if salary_min = 0 ∧ salary_max = 0 then 50
  else
    let salary :=
      if salary_min ≠ 0 ∧ salary_max ≠ 0 then (salary_min + salary_max) / 2
      else if salary_max ≠ 0 then salary_max
      else salary_min
    let il := pyLower interval
    let salary :=
      if subStr "hour" il then salary * 2080
      else if subStr "month" il then salary * 12
      else salary
    if 145000 ≤ salary then 100
    else if 120000 ≤ salary then 90
    else if 100000 ≤ salary then 80
    else if 85000 ≤ salary then 65
    else if 70000 ≤ salary then 50
    else if 55000 ≤ salary then 30
    else 15

/-- `score_company`. -/
def score_company (company description : String) : ℤ :=
  let company_lower := pyStrip (pyLower company)
  if company_lower == "" then 50
  else if COMPANY_TIERS_tier1.any
      (fun t => subStr t company_lower || subStr company_lower t) then 90
  else if COMPANY_TIERS_tier2.any
      (fun t => subStr t company_lower || subStr company_lower t) then 75
  else
    let desc_lower := pyLower description
    if ["fortune 500", "global", "enterprise", "publicly traded"].any
        (fun kw => subStr kw desc_lower) then 80
    else if ["series b", "series c", "series d", "well-funded"].any
        (fun kw => subStr kw desc_lower) then 70
    else if ["startup", "early stage", "seed", "series a"].any
        (fun kw => subStr kw desc_lower) then 55
    else 60

def NO_CODING_ROLES : List String :=
  ["product manager", "program manager", "project manager",
   "management consultant", "strategy consultant", "consultant",
   "business analyst",
   "analytics manager", "analytics lead", "analytics director",
   "data strategy", "data governance",
   "operations analyst", "operations manager",
   "marketing analyst",
   "insights analyst", "insights manager",
   "chief", "coo", "cto", "vp "]

def HEAVY_CODING_ROLES : List String :=
  ["machine learning engineer", "ml engineer", "mle",
   "data engineer", "software engineer", "backend engineer",
   "full stack", "frontend engineer",
   "applied scientist",
   "research engineer"]

def MIXED_ROLES : List String :=
  ["data scientist", "data analyst", "product analyst",
   "research scientist", "quantitative analyst",
   "bi analyst", "business intelligence"]

def NON_TECH_KEYWORDS : List String :=
  ["healthcare", "hospital", "clinic", "pharma",
   "government", "public sector", "crown corporation",
   "insurance", "credit union", "bank",
   "retail", "fashion", "apparel",
   "real estate", "construction",
   "transportation", "transit", "logistics",
   "energy", "mining", "forestry",
   "nonprofit", "non-profit", "ngo",
   "university", "college", "education"]

/-- `score_interview_format`: returns the clamped score together with the
explanation map (an insertion-ordered association list). -/
def score_interview_format (j : Job) : ℤ × List (String × String) :=
  let title := pyLower j.title
  let company := pyLower j.company
  let description := pyLower j.description
  let roleNo := NO_CODING_ROLES.find? (fun r => subStr r title)
  let roleHeavy :=
    if roleNo.isNone then HEAVY_CODING_ROLES.find? (fun r => subStr r title) else none
  let roleMixed :=
    if roleNo.isNone && roleHeavy.isNone then
      MIXED_ROLES.find? (fun r => subStr r title)
    else none
  let roleDelta : ℤ := if roleNo.isSome then 35 else if roleHeavy.isSome then -30 else 0
  let roleEntry : List (String × String) :=
    match roleNo with
    | some r => [("role_type", "+35 (" ++ r ++ " roles rarely have live coding)")]
    | none =>
      match roleHeavy with
      | some r => [("role_type", "-30 (" ++ r ++ " roles almost always have live coding)")]
      | none =>
        match roleMixed with
        | some r => [("role_type", "0 (" ++ r ++ " — interview format varies by company)")]
        | none => []
  let compLive := LIVE_CODING_COMPANIES.find? (fun c => subStr c company)
  let compTake :=
    if compLive.isNone then TAKEHOME_COMPANIES.find? (fun c => subStr c company) else none
  let compDelta : ℤ := if compLive.isSome then -20 else if compTake.isSome then 15 else 0
  let compEntry : List (String × String) :=
    match compLive with
    | some c => [("company_format", "-20 (" ++ c ++ " is known for live coding interviews)")]
    | none =>
      match compTake with
      | some c =>
        [("company_format", "+15 (" ++ c ++ " typically uses take-home or discussion format)")]
      | none => []
  let jd1 := ["case study", "take-home", "take home",
    "presentation", "case presentation"].any (fun kw => subStr kw description)
  let jd2 := ["stakeholder", "cross-functional", "executive",
    "business partner", "strategic thinking"].any (fun kw => subStr kw description)
  let jd3 := ["tableau", "power bi", "looker", "dashboard",
    "visualization", "reporting"].any (fun kw => subStr kw description)
  let jd4 := ["leetcode", "hackerrank", "coderpad",
    "coding challenge", "coding assessment",
    "live coding", "technical screen",
    "whiteboard"].any (fun kw => subStr kw description)
  let jd5 := ["system design", "design a system",
    "production code", "code review",
    "write efficient", "optimize query"].any (fun kw => subStr kw description)
  let jd6 := subStr "strong programming" description || subStr "expert in python" description
  let ind := NON_TECH_KEYWORDS.find? (fun kw => subStr kw description || subStr kw company)
  let score : ℤ := 50 + roleDelta + compDelta
    + (if jd1 then 15 else 0) + (if jd2 then 10 else 0) + (if jd3 then 8 else 0)
    + (if jd4 then -25 else 0) + (if jd5 then -15 else 0) + (if jd6 then -10 else 0)
    + (if ind.isSome then 10 else 0)
  let details := roleEntry ++ compEntry
    ++ (if jd1 then [("jd_format_positive",
          "+15 (JD mentions case study / take-home / presentation)")] else [])
    ++ (if jd2 then [("jd_business_focus",
          "+10 (JD emphasizes business/stakeholder skills over coding)")] else [])
    ++ (if jd3 then [("jd_bi_focus",
          "+8 (BI/visualization focus — less likely to test raw coding)")] else [])
    ++ (if jd4 then [("jd_coding_signal",
          "-25 (JD explicitly mentions coding test/assessment)")] else [])
    ++ (if jd5 then [("jd_engineering_signal",
          "-15 (JD has engineering/system design requirements)")] else [])
    ++ (if jd6 then [("jd_strong_coding",
          "-10 (JD requires strong/expert programming skills)")] else [])
    ++ (match ind with
        | some kw => [("industry", "+10 (non-tech industry " ++ kw ++
            " — typically lighter technical interviews)")]
        | none => [])
  (max 0 (min 100 score), details)

def diversity_keywords : List String :=
  ["diversity", "equity", "inclusion", "dei", "equal opportunity",
   "diverse backgrounds", "underrepresented", "belong"]

/-- The visa/sponsorship block of `calculate_success_score` (source lines
468-475): the whole block is gated on the description mentioning
`visa sponsorship` or `work permit`. -/
def visaDelta (description : String) : ℤ :=
  if subStr "visa sponsorship" description || subStr "work permit" description then
    if subStr "no visa" description || subStr "no sponsorship" description
        || subStr "not sponsor" description then -10
    else 5
  else 0

/-- The explanation entry of the visa/sponsorship block. -/
def visaEntry (description : String) : List (String × String) :=
  if subStr "visa sponsorship" description || subStr "work permit" description then
    if subStr "no visa" description || subStr "no sponsorship" description
        || subStr "not sponsor" description then
      [("visa_signal", "-10 (explicitly will not sponsor)")]
    else [("visa_signal", "+5 (mentions visa sponsorship positively)")]
  else []

/-- `calculate_success_score`: clamped score plus explanation map. -/
def calculate_success_score (j : Job) : ℤ × List (String × String) :=
  let title := pyLower j.title
  let description := pyLower j.description
  let company := pyLower j.company
  let location := pyLower j.location
  let exp : ℤ × String :=
    if ["senior", "sr.", "sr "].any (fun w => subStr w title) then
      (5, "+5 (senior role, you have experience but overseas)")
    else if ["lead", "principal", "staff", "head", "director"].any
        (fun w => subStr w title) then
      (-5, "-5 (leadership role, usually needs local track record)")
    else if ["junior", "jr.", "associate", "entry"].any (fun w => subStr w title) then
      (10, "+10 (junior role, easy to qualify but may seem overqualified)")
    else
      (15, "+15 (mid-level role, good fit)")
  let canadian : ℤ × String :=
    if subStr "canadian experience" description || subStr "local experience" description then
      (-25, "-25 (JD explicitly requires Canadian experience)")
    else if subStr "international" description
        && (subStr "welcome" description || subStr "valued" description) then
      (-5, "-5 (JD welcomes international experience)")
    else if ["global", "cross-border", "multinational", "multilingual"].any
        (fun w => subStr w description) then
      (-8, "-8 (role involves global work, your background is relevant)")
    else if subStr "remote" location then
      (-10, "-10 (remote role, less local bias)")
    else
      (-15, "-15 (no signals about international candidates)")
  let open1 := IMMIGRANT_FRIENDLY_COMPANIES.any (fun c => subStr c company)
  let open2 := diversity_keywords.any (fun kw => subStr kw description)
  let openness : ℤ := (if open1 then 10 else 0) + (if open2 then 5 else 0)
    + visaDelta description
  let competition : ℤ × String :=
    if TIER1_COMPANIES.any (fun c => subStr c company) then
      if subStr "senior" title || subStr "lead" title then
        (-15, "-15 (senior role at top company, extremely competitive)")
      else
        (-8, "-8 (top company, competitive)")
    else if SMALL_COMPANIES_OR_STARTUPS.any (fun c => subStr c company) then
      (-3, "-3 (smaller company, less competition)")
    else
      (-5, "-5 (average competition)")
  let nich1 := subStr "cybersecurity" title
    && (subStr "data" title || subStr "ml" title || subStr "machine learning" description)
  let nich2 := ["chinese market", "china", "apac", "asia pacific", "mandarin"].any
    (fun w => subStr w description)
  let nich3 := subStr "quantitative" title || subStr "quant" title
  let nich4 := ["insurance", "insurtech"].any (fun w => subStr w description)
  let nich5 := ["graph neural", "gnn", "knowledge graph"].any (fun w => subStr w description)
  let nich6 := subStr "consulting" title || subStr "consultant" title
  let niche : ℤ := (if nich1 then 10 else 0) + (if nich2 then 10 else 0)
    + (if nich3 then 8 else 0) + (if nich4 then 8 else 0)
    + (if nich5 then 10 else 0) + (if nich6 then 8 else 0)
  let networking_bonus : ℤ := min 15 (generate_networking_intel j.company).networking_score
  let score : ℤ := 40 + exp.1 + canadian.1 + openness + competition.1 + niche
    + networking_bonus
  let details : List (String × String) :=
    [("experience_match", exp.2), ("canadian_exp", canadian.2)]
    ++ (if open1 then
          [("company_openness", "+10 (company known to hire international talent)")] else [])
    ++ (if open2 then [("diversity_signal", "+5 (JD has diversity language)")] else [])
    ++ visaEntry description
    ++ [("competition", competition.2)]
    ++ (if nich1 then [("niche", "+10 (cybersecurity + DS is your unique niche)")] else [])
    ++ (if nich2 then [("niche_china", "+10 (role values China/APAC experience)")] else [])
    ++ (if nich3 then
          [("niche_quant", "+8 (quantitative role matches your PE background)")] else [])
    ++ (if nich4 then
          [("niche_insurance", "+8 (insurance domain matches Shiyibei experience)")] else [])
    ++ (if nich5 then
          [("niche_gnn", "+10 (GNN expertise is rare, strong differentiator)")] else [])
    ++ (if nich6 then
          [("niche_consulting", "+8 (consulting role matches PwC background)")] else [])
    ++ [("networking", "+" ++ toString networking_bonus ++
          " (networking potential at this company)")]
  (max 0 (min 100 score), details)

/-! ## Tier classifier -/

/-- The scores dict passed to `assign_tier`; the classifier reads only
the interview and success entries (with default 50). -/
structure TierScores where
  score_interview : ℤ := 50
  score_success : ℤ := 50
  deriving DecidableEq, Repr

def engineering_roles : List String :=
  ["data engineer", "software engineer", "ml engineer",
   "machine learning engineer", "backend", "frontend",
   "platform engineer", "devops"]

/-- The stretch-signal counter of `assign_tier`, in source order.  The
first addend transcribes the source `if interview >= 70 ... elif
interview < 45` chain. -/
def stretchSignals (j : Job) (interview_score : ℤ) : ℤ :=
  (if 70 ≤ interview_score then 0 else if interview_score < 45 then 1 else 0)
  + (if ["senior", "staff", "principal", "lead", "head"].any
        (fun w => subStr w (pyLower j.title)) then 1 else 0)
  + (if TIER1_COMPANIES.any (fun c => subStr c (pyLower j.company)) then 1 else 0)
  + (if subStr "canadian experience" (pyLower j.description) then 2 else 0)

/-- The quick-win-signal counter of `assign_tier`, in source order. -/
def quickwinSignals (j : Job) (interview_score : ℤ) : ℤ :=
  (if 70 ≤ interview_score then 1 else 0)
  + (if ["junior", "associate", "entry"].any
        (fun w => subStr w (pyLower j.title)) then 1 else 0)
  + (if subStr "contract" (pyLower j.job_type) then 1 else 0)
  + (if ["product manager", "consultant", "business analyst"].any
        (fun w => subStr w (pyLower j.title)) then 1 else 0)
  + (if SMALL_COMPANIES_OR_STARTUPS.any (fun c => subStr c (pyLower j.company)) then 1 else 0)
  + (if ["cybersecurity", "insurance", "quant"].any
        (fun w => subStr w (pyLower j.title)) then 1 else 0)

/-- `assign_tier`. -/
def assign_tier (j : Job) (sc : TierScores) : String :=
  if sc.score_interview < 30 then "A"
  else if engineering_roles.any (fun r => subStr r (pyLower j.title)) then "A"
  else
    let st := stretchSignals j sc.score_interview
    let qw := quickwinSignals j sc.score_interview
    if 2 ≤ st ∧ qw < 2 then "A"
    else if 2 ≤ qw ∨ 60 ≤ sc.score_success then "C"
    else "B"

/-! ## Composite scorer -/

/-- Binary64 value of the weight literal `0.30`. -/
def W_skills : ℚ := fl (30/100)

/-- Binary64 value of the weight literal `0.25`. -/
def W_immigration : ℚ := fl (25/100)

/-- Binary64 value of the weight literal `0.15`. -/
def W_interview : ℚ := fl (15/100)

/-- Binary64 value of the weight literal `0.10`. -/
def W_salary : ℚ := fl (10/100)

/-- Binary64 value of the weight literal `0.10`. -/
def W_company : ℚ := fl (10/100)

/-- Binary64 value of the weight literal `0.10`. -/
def W_success : ℚ := fl (10/100)

/-- The composite total of `rank_job`:
`round(skills*0.30 + immigration*0.25 + interview*0.15 + salary*0.10 +
company*0.10 + success*0.10, 1)` with binary64 arithmetic at every
operation and CPython decimal rounding at the end. -/
def totalRaw (a b c d e f : ℤ) : ℚ :=
  let p1 := fl (fl (a : ℚ) * W_skills)
  let p2 := fl (fl (b : ℚ) * W_immigration)
  let p3 := fl (fl (c : ℚ) * W_interview)
  let p4 := fl (fl (d : ℚ) * W_salary)
  let p5 := fl (fl (e : ℚ) * W_company)
  let p6 := fl (fl (f : ℚ) * W_success)
  fl (fl (fl (fl (fl (p1 + p2) + p3) + p4) + p5) + p6)

def computeTotal (a b c d e f : ℤ) : ℚ :=
  pyRound1 (totalRaw a b c d e f)

/-- The priority label derivation of `rank_job`. -/
def computePriority (total : ℚ) : String :=
  if 75 ≤ total then "HIGH" else if 55 ≤ total then "MEDIUM" else "LOW"

/-! ## Per-posting pipeline and batch ranker -/

/-- The NOC resolution step of `rank_job`: guess a NOC code from the
title only when the posting does not already carry one. -/
def resolveNoc (j : Job) : String × String :=
  if j.noc_code == "" then guess_noc_from_title j.title
  else (j.noc_code, j.noc_description)

/-- `rank_job`: scores one posting and attaches all derived fields.  The
skill sets are the taxonomy parameter (`_load_skill_sets()` in the
source; file loading is outside the engine). -/
def rank_job (ss : SkillSets) (j : Job) : Job :=
  let noc := resolveNoc j
  let s_skills := score_skills_match j.title j.description ss
  let s_immigration := score_immigration_fit j.title j.description j.location j.job_type noc.1
  let s_salary := score_salary j.salary_min j.salary_max j.salary_interval
  let s_company := score_company j.company j.description
  let iv := score_interview_format j
  let su := calculate_success_score j
  let ni := generate_networking_intel j.company
  let total := computeTotal s_skills s_immigration iv.1 s_salary s_company su.1
  let tier := assign_tier j { score_interview := iv.1, score_success := su.1 }
  { j with
    score_skills := s_skills
    score_immigration := s_immigration
    score_salary := s_salary
    score_company := s_company
    score_success := su.1
    score_interview := iv.1
    score_total := total
    priority := computePriority total
    noc_code := noc.1
    noc_description := noc.2
    bcpnp_eligible := if is_bcpnp_eligible noc.1 then 1 else 0
    tier := tier
    networking_score := ni.networking_score
    networking_notes := ni.networking_tips
    success_details := su.2
    interview_format_details := iv.2 }

/-- Stable descending insertion by total score: an element is inserted
after every earlier element whose total is strictly greater, and before
earlier-inserted elements of equal total never — i.e. it keeps walking
only past strictly greater keys, which is exactly the tie behaviour of
CPython `list.sort(key=..., reverse=True)` (a stable sort). -/
def insertDesc (x : Job) : List Job → List Job
  | [] => [x]
  | y :: ys => if x.score_total < y.score_total then y :: insertDesc x ys else x :: y :: ys

/-- Stable sort of jobs by total score, descending. -/
def sortJobsDesc : List Job → List Job
  | [] => []
  | x :: xs => insertDesc x (sortJobsDesc xs)

/-- `rank_jobs`: enrich every posting through the full pipeline, then
sort by total score descending (stable). -/
def rank_jobs (ss : SkillSets) (jobs : List Job) : List Job :=
  sortJobsDesc (jobs.map (rank_job ss))

/-! ## Text normalizer (`core/ats_scorer.py`, `clean_text`) -/

/-- The characters preserved by the regex `[^\w\s/\-\+\.]` of
`clean_text`: Python `\w` on ASCII is alphanumeric **or underscore**. -/
def keepChar (c : Char) : Bool :=
  c.isAlphanum || c == '_' || pySpace c || c == '/' || c == '-' || c == '+' || c == '.'

/-- `re.sub(r'\s+', ' ', ...)`: collapse every run of whitespace to a
single space.  The flag records whether the previous character was part
of a whitespace run. -/
def collapseAux : Bool → List Char → List Char
  | _, [] => []
  | prevSpace, c :: cs =>
    if pySpace c then
      if prevSpace then collapseAux true cs else ' ' :: collapseAux true cs
    else c :: collapseAux false cs

/-- `clean_text`: lower-case, replace every character not matched by
`[\w\s/\-\+\.]` with a space, collapse whitespace runs, strip. -/
def clean_text (s : String) : String :=
  String.mk (stripChars (collapseAux false
    ((pyLower s).toList.map (fun c => if keepChar c then c else ' '))))

/-! ### Spec-side normalizer (for the refinement claim about
`clean_text`): stated the way the spec words it — split the replaced
text into whitespace-separated words and re-join them with single
spaces. -/

/-- Whitespace-separated words of a character list (no empty words). -/
def wordsAux : List Char → List Char → List (List Char)
  | acc, [] => if acc.isEmpty then [] else [acc.reverse]
  | acc, c :: cs =>
    if pySpace c then
      if acc.isEmpty then wordsAux [] cs else acc.reverse :: wordsAux [] cs
    else wordsAux (c :: acc) cs

/-- The claimed character set of the spec: alphanumeric, whitespace,
`/`, `-`, `+`, `.` — without the underscore. -/
def specKeepClaim (c : Char) : Bool :=
  c.isAlphanum || pySpace c || c == '/' || c == '-' || c == '+' || c == '.'

/-- Join words with single spaces. -/
def joinSp : List (List Char) → List Char
  | [] => []
  | [w] => w
  | w :: ws => w ++ ' ' :: joinSp ws

/-- The normalizer as the spec describes it, parameterized by the set of
preserved characters: lower-case, replace, then split into words and
re-join with single spaces (collapse + trim in one step). -/
def specNormalizeWith (keep : Char → Bool) (s : String) : String :=
  String.mk (joinSp
    (wordsAux [] ((pyLower s).toList.map (fun c => if keep c then c else ' '))))

/-- The preserved-character set as amended: alphanumeric, underscore,
whitespace, `/`, `-`, `+`, `.`. -/
def specKeepAmended (c : Char) : Bool :=
  c.isAlphanum || c == '_' || pySpace c || c == '/' || c == '-' || c == '+' || c == '.'

/-! ### The collapse/strip pipeline equals the split/re-join form -/

/-- Strip trailing whitespace. -/
def rstrip (l : List Char) : List Char :=
  (l.reverse.dropWhile pySpace).reverse

theorem stripChars_eq (l : List Char) : stripChars l = rstrip (l.dropWhile pySpace) := rfl

theorem rstrip_cons_of_not_space (c : Char) (l : List Char) (hc : ¬ pySpace c) :
    rstrip (c :: l) = c :: rstrip l := by
  unfold rstrip
  rw [List.reverse_cons, List.dropWhile_append]
  split
  · rename_i hemp
    rw [List.isEmpty_iff] at hemp
    rw [hemp]
    simp [List.dropWhile, hc]
  · simp

theorem rstrip_cons_space (l : List Char) :
    rstrip (' ' :: l) = if rstrip l = [] then [] else ' ' :: rstrip l := by
  unfold rstrip
  rw [List.reverse_cons, List.dropWhile_append]
  split
  · rename_i hemp
    rw [List.isEmpty_iff] at hemp
    rw [hemp]
    simp [List.dropWhile, pySpace]
  · rename_i hemp
    rw [List.isEmpty_iff] at hemp
    rw [if_neg, List.reverse_append]
    · simp
    · simp [hemp]

theorem wordsAux_ne_nil (cs : List Char) : ∀ a w, w ∈ wordsAux a cs → w ≠ [] := by
  induction cs with
  | nil =>
    intro a w hw
    unfold wordsAux at hw
    split at hw
    · simp at hw
    · rename_i hne
      rw [List.isEmpty_iff] at hne
      simp at hw
      subst hw
      simpa using hne
  | cons c cs ih =>
    intro a w hw
    unfold wordsAux at hw
    split at hw
    · split at hw
      · exact ih [] w hw
      · rename_i hne
        rw [List.isEmpty_iff] at hne
        rcases List.mem_cons.mp hw with h | h
        · subst h
          simpa using hne
        · exact ih [] w h
    · exact ih (c :: a) w hw

theorem joinSp_cons (w : List Char) (ws : List (List Char)) (h : ws ≠ []) :
    joinSp (w :: ws) = w ++ ' ' :: joinSp ws := by
  cases ws with
  | nil => exact absurd rfl h
  | cons v vs => rfl

/-- Core correspondence: the whitespace-collapse automaton under a final
strip produces exactly the space-joined word list.  First component:
between-words state; second: mid-word state with nonempty accumulator. -/
theorem collapse_words (cs : List Char) :
    (joinSp (wordsAux [] cs) = rstrip (collapseAux true cs))
    ∧ (∀ a, a ≠ [] → joinSp (wordsAux a cs) = a.reverse ++ rstrip (collapseAux false cs)) := by
  induction cs with
  | nil =>
    constructor
    · rfl
    · intro a ha
      unfold wordsAux collapseAux
      rw [if_neg (by simpa using ha)]
      simp [joinSp, rstrip]
  | cons c cs ih =>
    by_cases hsp : pySpace c
    · constructor
      · show joinSp (wordsAux [] (c :: cs)) = rstrip (collapseAux true (c :: cs))
        unfold wordsAux collapseAux
        rw [if_pos hsp, if_pos (by simp), if_pos hsp, if_pos rfl]
        exact ih.1
      · intro a ha
        show joinSp (wordsAux a (c :: cs)) = a.reverse ++ rstrip (collapseAux false (c :: cs))
        unfold wordsAux collapseAux
        rw [if_pos hsp, if_neg (by simpa using ha), if_pos hsp, if_neg (by simp)]
        rw [rstrip_cons_space]
        rcases hws : wordsAux [] cs with _ | ⟨w, ws⟩
        · have h1 := ih.1
          rw [hws] at h1
          simp only [joinSp] at h1
          rw [if_pos h1.symm, joinSp]
          simp
        · have h1 := ih.1
          rw [hws] at h1
          have hwne : w ≠ [] := wordsAux_ne_nil cs [] w (by rw [hws]; simp)
          have hne : rstrip (collapseAux true cs) ≠ [] := by
            rw [← h1]
            cases ws with
            | nil => simpa [joinSp] using hwne
            | cons v vs =>
              rw [joinSp_cons w (v :: vs) (by simp)]
              simp [hwne]
          rw [if_neg hne, joinSp_cons _ _ (by simp), h1]
    · constructor
      · show joinSp (wordsAux [] (c :: cs)) = rstrip (collapseAux true (c :: cs))
        unfold wordsAux collapseAux
        rw [if_neg hsp, if_neg hsp]
        rw [ih.2 [c] (by simp), rstrip_cons_of_not_space c _ hsp]
        simp
      · intro a ha
        show joinSp (wordsAux a (c :: cs)) = a.reverse ++ rstrip (collapseAux false (c :: cs))
        unfold wordsAux collapseAux
        rw [if_neg hsp, if_neg hsp]
        rw [ih.2 (c :: a) (by simp), rstrip_cons_of_not_space c _ hsp]
        simp

theorem dropWhile_collapse_true (cs : List Char) :
    (collapseAux true cs).dropWhile pySpace = collapseAux true cs := by
  induction cs with
  | nil => rfl
  | cons c cs ih =>
    unfold collapseAux
    by_cases hsp : pySpace c
    · rw [if_pos hsp, if_pos rfl]
      exact ih
    · rw [if_neg hsp, List.dropWhile_cons_of_neg (by simpa using hsp)]

/-- The code pipeline (replace, collapse runs, strip) coincides with the
spec formulation (replace, split into words, re-join). -/
theorem stripChars_collapseAux (l : List Char) :
    stripChars (collapseAux false l) = joinSp (wordsAux [] l) := by
  cases l with
  | nil => rfl
  | cons c cs =>
    rw [stripChars_eq]
    by_cases hsp : pySpace c
    · show rstrip ((collapseAux false (c :: cs)).dropWhile pySpace) = joinSp (wordsAux [] (c :: cs))
      unfold collapseAux wordsAux
      rw [if_pos hsp, if_neg (by simp), if_pos hsp, if_pos (by simp)]
      rw [List.dropWhile_cons_of_pos (by decide), dropWhile_collapse_true]
      exact (collapse_words cs).1.symm
    · show rstrip ((collapseAux false (c :: cs)).dropWhile pySpace) = joinSp (wordsAux [] (c :: cs))
      unfold collapseAux wordsAux
      rw [if_neg hsp, if_neg hsp]
      rw [List.dropWhile_cons_of_neg (by simpa using hsp)]
      rw [rstrip_cons_of_not_space c _ hsp, (collapse_words cs).2 [c] (by simp)]
      simp

/-! ## Claim C9 (text normalizer) -/

/-- C9 counterexample: the claim preserves only alphanumerics (plus
whitespace and `/ - + .`), but `clean_text` also preserves the
underscore, because Python `\w` matches it: on the input `"_"` the code
returns `"_"` while the claimed normalizer returns `""`. -/
theorem claim_C9_counterexample :
    clean_text "_" = "_" ∧ specNormalizeWith specKeepClaim "_" = "" := by
  constructor <;> decide

/-- C9 (amended): `clean_text` lower-cases, replaces every character
outside the set {alphanumeric, underscore, whitespace, `/`, `-`, `+`,
`.`} with a space, collapses each whitespace run to a single space and
trims; the empty string maps to the empty string. -/
theorem claim_C9_text_normalizer :
    (∀ s : String, clean_text s = specNormalizeWith specKeepAmended s)
    ∧ clean_text "" = "" := by
  constructor
  · intro s
    unfold clean_text specNormalizeWith
    rw [show (fun c => if specKeepAmended c then c else ' ')
          = (fun c => if keepChar c then c else ' ') from by
        funext c
        simp [keepChar, specKeepAmended]]
    exact congrArg String.mk (stripChars_collapseAux _)
  · decide

/-! ## Claim C1 (tier-classifier hard override) -/

/-- C1: for every posting and every score set, an interview-format score
strictly below 30 makes `assign_tier` return `"A"`, regardless of any
other field or signal. -/
theorem claim_C1_hard_override (j : Job) (sc : TierScores)
    (h : sc.score_interview < 30) : assign_tier j sc = "A" := by
  unfold assign_tier
  rw [if_pos h]

/-- C1 witness: a posting with interview score 29 and three quick-win
signals (junior title, contract type, business-analyst title) is still
tier A; the only stretch signal is the one the low interview score
itself would add, and none of it is consulted. -/
theorem claim_C1_witness :
    (29 : ℤ) < 30
    ∧ quickwinSignals { title := "Junior Business Analyst", job_type := "Contract" } 29 = 3
    ∧ stretchSignals { title := "Junior Business Analyst", job_type := "Contract" } 29 = 1
    ∧ assign_tier { title := "Junior Business Analyst", job_type := "Contract" }
        { score_interview := 29, score_success := 50 } = "A" :=
  ⟨by norm_num, by decide, by decide,
   claim_C1_hard_override _ _ (by norm_num)⟩

/-! ## Claim C10 (visa-signal gating in the success scorer) -/

/-- C10: the sponsorship branch of `calculate_success_score` is evaluated
only when the description mentions `visa sponsorship` or `work permit`;
a description with a negation phrase but neither trigger gets a zero visa
delta, and no `visa_signal` entry appears in the explanation map. -/
theorem mem_ite_nil {α : Type} (p : Prop) [Decidable p] (x : α) (l : List α)
    (h : x ∈ if p then l else []) : x ∈ l := by
  split at h
  · exact h
  · simp at h

theorem claim_C10_visa_gating (j : Job)
    (_hneg : subStr "no visa" (pyLower j.description) = true
      ∨ subStr "no sponsorship" (pyLower j.description) = true
      ∨ subStr "not sponsor" (pyLower j.description) = true)
    (h1 : subStr "visa sponsorship" (pyLower j.description) = false)
    (h2 : subStr "work permit" (pyLower j.description) = false) :
    visaDelta (pyLower j.description) = 0
    ∧ "visa_signal" ∉ (calculate_success_score j).2.map Prod.fst := by
  constructor
  · unfold visaDelta
    rw [h1, h2]
    simp
  · intro hkv
    simp only [calculate_success_score, visaEntry, h1, h2] at hkv
    simp only [Bool.false_or, Bool.or_false, Bool.or_self] at hkv
    simp only [Bool.false_eq_true, if_false, List.append_nil, List.append_assoc,
      List.map_append,
      apply_ite (List.map (Prod.fst : String × String → String)),
      List.map_cons, List.map_nil, List.mem_append, List.mem_cons,
      List.mem_singleton, List.not_mem_nil, or_false, false_or] at hkv
    rcases hkv with h | h | h | h | h | h | h | h | h | h | h <;>
      first
        | (exact absurd h (by decide))
        | (exact absurd (mem_ite_nil _ _ _ h) (by decide))

/-- C10 witness at a concrete posting whose description negates
sponsorship without mentioning the trigger phrases. -/
theorem claim_C10_witness :
    visaDelta (pyLower ({ description := "No visa support offered" } : Job).description) = 0
    ∧ "visa_signal" ∉
        (calculate_success_score
          ({ description := "No visa support offered" } : Job)).2.map Prod.fst :=
  claim_C10_visa_gating ({ description := "No visa support offered" } : Job)
    (Or.inl (by decide)) (by decide) (by decide)

/-! ## Claim C2 (compensation scorer) -/

/-- The seven score tiers of the claim, as an ordered descending
threshold table (the `else 15` default is the fall-through). -/
def salaryTiers : List (ℚ × ℤ) :=
  [(145000, 100), (120000, 90), (100000, 80), (85000, 65), (70000, 50), (55000, 30)]

/-- First tier whose threshold the annualized figure meets, else 15. -/
def tierLookup (annual : ℚ) : List (ℚ × ℤ) → ℤ
  | [] => 15
  | t :: ts => if t.1 ≤ annual then t.2 else tierLookup annual ts

/-- Score tier of an annualized figure. -/
def tierOf (annual : ℚ) : ℤ :=
  tierLookup annual salaryTiers

/-- The compensation scorer exactly as claim C2 words it — including the
`weekly ×52` annualization the claim asserts. -/
def claimSalaryScore (salary_min salary_max : ℚ) (interval : String) : ℤ :=
  if salary_min = 0 ∧ salary_max = 0 then 50
  else
    let salary :=
      if salary_min ≠ 0 ∧ salary_max ≠ 0 then (salary_min + salary_max) / 2
      else if salary_max ≠ 0 then salary_max
      else salary_min
    let il := pyLower interval
    let salary :=
      if subStr "hour" il then salary * 2080
      else if subStr "month" il then salary * 12
      else if subStr "week" il then salary * 52
      else salary
    tierOf salary

/-- The compensation scorer as amended: identical to the claim except
that a weekly interval is **not** annualized — the code has no weekly
branch and treats any interval other than hourly/monthly as already
annual. -/
def claimSalaryScoreAmended (salary_min salary_max : ℚ) (interval : String) : ℤ :=
  if salary_min = 0 ∧ salary_max = 0 then 50
  else
    let salary :=
      if salary_min ≠ 0 ∧ salary_max ≠ 0 then (salary_min + salary_max) / 2
      else if salary_max ≠ 0 then salary_max
      else salary_min
    let il := pyLower interval
    let salary :=
      if subStr "hour" il then salary * 2080
      else if subStr "month" il then salary * 12
      else salary
    tierOf salary

theorem tierOf_eq (a : ℚ) :
    tierOf a = if 145000 ≤ a then 100
      else if 120000 ≤ a then 90
      else if 100000 ≤ a then 80
      else if 85000 ≤ a then 65
      else if 70000 ≤ a then 50
      else if 55000 ≤ a then 30
      else 15 := by
  unfold tierOf salaryTiers
  simp only [tierLookup]

/-- C2 counterexample: a weekly salary of 2000 (both bounds) annualizes
to 104000 under the claim (score 80), but `score_salary` has no weekly
branch and scores the raw 2000 as an annual figure (score 15). -/
theorem claim_C2_counterexample :
    score_salary 2000 2000 "weekly" = 15 ∧ claimSalaryScore 2000 2000 "weekly" = 80 := by
  have hh : subStr "hour" (pyLower "weekly") = false := by decide
  have hm : subStr "month" (pyLower "weekly") = false := by decide
  have hw : subStr "week" (pyLower "weekly") = true := by decide
  constructor
  · rw [score_salary, if_neg (by norm_num)]
    norm_num [hh, hm]
  · rw [claimSalaryScore, if_neg (by norm_num)]
    norm_num [hh, hm, hw, tierOf, salaryTiers, tierLookup]

/-- C2 (amended): `score_salary` returns 50 when both bounds are zero or
absent; otherwise it takes the midpoint when both bounds are present,
else the present bound, multiplies by 2080 for an hourly interval and by
12 for a monthly one — any other interval (weekly included) is taken as
already annual — and maps the figure through the descending
≥-threshold table 145000→100, 120000→90, 100000→80, 85000→65, 70000→50,
55000→30, else 15. -/
theorem claim_C2_compensation (salary_min salary_max : ℚ) (interval : String) :
    score_salary salary_min salary_max interval
      = claimSalaryScoreAmended salary_min salary_max interval := by
  unfold score_salary claimSalaryScoreAmended
  split
  · rfl
  · rw [tierOf_eq]

/-! ## Claim C3 (tier-classifier accumulation and final decision) -/

/-- The stretch counter as claim C3 lists it: interview score < 45 → +1
(stated as an independent checklist item), senior/staff/principal/lead/
head title → +1, tier-1 company → +1, explicit local-experience-required
phrasing (the code phrase is `canadian experience`) → +2. -/
def claimC3_stretch (j : Job) (interview_score : ℤ) : ℤ :=
  (if interview_score < 45 then 1 else 0)
  + (if ["senior", "staff", "principal", "lead", "head"].any
        (fun w => subStr w (pyLower j.title)) then 1 else 0)
  + (if TIER1_COMPANIES.any (fun c => subStr c (pyLower j.company)) then 1 else 0)
  + (if subStr "canadian experience" (pyLower j.description) then 2 else 0)

/-- The quick-win counter as claim C3 lists it. -/
def claimC3_quickwin (j : Job) (interview_score : ℤ) : ℤ :=
  (if 70 ≤ interview_score then 1 else 0)
  + (if ["junior", "associate", "entry"].any
        (fun w => subStr w (pyLower j.title)) then 1 else 0)
  + (if subStr "contract" (pyLower j.job_type) then 1 else 0)
  + (if ["product manager", "consultant", "business analyst"].any
        (fun w => subStr w (pyLower j.title)) then 1 else 0)
  + (if SMALL_COMPANIES_OR_STARTUPS.any (fun c => subStr c (pyLower j.company)) then 1 else 0)
  + (if ["cybersecurity", "insurance", "quant"].any
        (fun w => subStr w (pyLower j.title)) then 1 else 0)

/-- The final decision as claim C3 states it. -/
def claimC3_tier (j : Job) (sc : TierScores) : String :=
  if 2 ≤ claimC3_stretch j sc.score_interview
      ∧ claimC3_quickwin j sc.score_interview < 2 then "A"
  else if 2 ≤ claimC3_quickwin j sc.score_interview ∨ 60 ≤ sc.score_success then "C"
  else "B"

/-- C3: when neither hard override fires (interview score ≥ 30 and no
engineering-heavy title phrase), `assign_tier` accumulates exactly the
claimed independent checklist — in particular the source `elif` between
the interview ≥ 70 and interview < 45 items collapses to the claimed
independent items because the two conditions are disjoint — and decides
A / C / B by the claimed final rule. -/
theorem claim_C3_accumulation (j : Job) (sc : TierScores)
    (h30 : 30 ≤ sc.score_interview)
    (heng : engineering_roles.any (fun r => subStr r (pyLower j.title)) = false) :
    assign_tier j sc = claimC3_tier j sc := by
  have hfirst : (if 70 ≤ sc.score_interview then (0 : ℤ)
      else if sc.score_interview < 45 then 1 else 0)
      = if sc.score_interview < 45 then 1 else 0 := by
    split_ifs <;> omega
  have hst : stretchSignals j sc.score_interview = claimC3_stretch j sc.score_interview := by
    unfold stretchSignals claimC3_stretch
    rw [hfirst]
  have hqw : quickwinSignals j sc.score_interview = claimC3_quickwin j sc.score_interview := rfl
  unfold assign_tier claimC3_tier
  rw [if_neg (by omega), if_neg (by simp [heng]), hst, hqw]

/-- C3 witness: a senior posting at a tier-1 company whose description
demands Canadian experience, with interview score 50 — four stretch
signals, zero quick-win signals, tier A by the final rule. -/
theorem claim_C3_witness :
    (30 : ℤ) ≤ 50
    ∧ engineering_roles.any
        (fun r => subStr r (pyLower "Senior Data Scientist")) = false
    ∧ assign_tier
        { title := "Senior Data Scientist", company := "Amazon",
          description := "Requires Canadian experience" }
        { score_interview := 50, score_success := 50 }
      = claimC3_tier
        { title := "Senior Data Scientist", company := "Amazon",
          description := "Requires Canadian experience" }
        { score_interview := 50, score_success := 50 }
    ∧ claimC3_tier
        { title := "Senior Data Scientist", company := "Amazon",
          description := "Requires Canadian experience" }
        { score_interview := 50, score_success := 50 } = "A" :=
  ⟨by norm_num, by decide,
   claim_C3_accumulation _ _ (by norm_num) (by decide), by decide⟩

/-! ## Claim C7 (batch ranker: sorted, stable, same postings) -/

theorem insertDesc_perm (x : Job) (l : List Job) : (insertDesc x l).Perm (x :: l) := by
  induction l with
  | nil => exact List.Perm.refl _
  | cons y ys ih =>
    unfold insertDesc
    split
    · exact List.Perm.trans (List.Perm.cons y ih) (List.Perm.swap x y ys)
    · exact List.Perm.refl _

theorem sortJobsDesc_perm (l : List Job) : (sortJobsDesc l).Perm l := by
  induction l with
  | nil => exact List.Perm.refl _
  | cons x xs ih =>
    exact List.Perm.trans (insertDesc_perm _ _) (List.Perm.cons x ih)

theorem mem_insertDesc (z x : Job) (l : List Job) (h : z ∈ insertDesc x l) :
    z = x ∨ z ∈ l :=
  List.mem_cons.mp ((insertDesc_perm x l).mem_iff.mp h)

theorem insertDesc_sorted (x : Job) (l : List Job)
    (hl : List.Pairwise (fun a b => b.score_total ≤ a.score_total) l) :
    List.Pairwise (fun a b => b.score_total ≤ a.score_total) (insertDesc x l) := by
  induction l with
  | nil => simp [insertDesc]
  | cons y ys ih =>
    rw [List.pairwise_cons] at hl
    unfold insertDesc
    split
    · rename_i hlt
      rw [List.pairwise_cons]
      constructor
      · intro z hz
        rcases mem_insertDesc z x ys hz with rfl | hz
        · exact le_of_lt hlt
        · exact hl.1 z hz
      · exact ih hl.2
    · rename_i hge
      push_neg at hge
      rw [List.pairwise_cons]
      constructor
      · intro z hz
        rcases List.mem_cons.mp hz with rfl | hz
        · exact hge
        · exact le_trans (hl.1 z hz) hge
      · exact List.pairwise_cons.mpr hl

theorem sortJobsDesc_sorted (l : List Job) :
    List.Pairwise (fun a b => b.score_total ≤ a.score_total) (sortJobsDesc l) := by
  induction l with
  | nil => simp [sortJobsDesc]
  | cons x xs ih => exact insertDesc_sorted x _ ih

theorem filter_insertDesc (v : ℚ) (x : Job) (l : List Job) :
    (insertDesc x l).filter (fun j => decide (j.score_total = v))
      = if x.score_total = v
        then x :: l.filter (fun j => decide (j.score_total = v))
        else l.filter (fun j => decide (j.score_total = v)) := by
  induction l with
  | nil =>
    unfold insertDesc
    split <;> simp_all [List.filter]
  | cons y ys ih =>
    unfold insertDesc
    split
    · rename_i hlt
      by_cases hx : x.score_total = v
      · have hy : ¬ (y.score_total = v) := by
          intro hy
          rw [← hx] at hy
          exact absurd hy (by exact ne_of_gt hlt)
        simp only [List.filter, decide_eq_true_eq]
        rw [if_pos hx] at ih ⊢
        simp [hy, ih, hx]
      · simp only [List.filter, decide_eq_true_eq]
        rw [if_neg hx] at ih
        rw [if_neg hx]
        by_cases hy : y.score_total = v <;> simp [hy, ih]
    · by_cases hx : x.score_total = v
      · rw [if_pos hx]
        simp [List.filter, hx]
      · rw [if_neg hx]
        simp [List.filter, hx]

theorem filter_sortJobsDesc (v : ℚ) (l : List Job) :
    (sortJobsDesc l).filter (fun j => decide (j.score_total = v))
      = l.filter (fun j => decide (j.score_total = v)) := by
  induction l with
  | nil => rfl
  | cons x xs ih =>
    show (insertDesc x (sortJobsDesc xs)).filter _ = _
    rw [filter_insertDesc]
    by_cases hx : x.score_total = v
    · rw [if_pos hx, ih]
      simp [List.filter, hx]
    · rw [if_neg hx, ih]
      simp [List.filter, hx]

/-- C7: `rank_jobs` returns exactly the input postings, each enriched by
the per-posting pipeline (a permutation of the enriched input), sorted
by total score descending, and the sort is stable: for every total
value, the sub-list of output postings with that total is exactly the
sub-list of enriched input postings with that total, in input order. -/
theorem claim_C7_batch_ranker (ss : SkillSets) (jobs : List Job) :
    (rank_jobs ss jobs).Perm (jobs.map (rank_job ss))
    ∧ List.Pairwise (fun a b => b.score_total ≤ a.score_total) (rank_jobs ss jobs)
    ∧ ∀ v : ℚ, (rank_jobs ss jobs).filter (fun j => decide (j.score_total = v))
        = (jobs.map (rank_job ss)).filter (fun j => decide (j.score_total = v)) :=
  ⟨sortJobsDesc_perm _, sortJobsDesc_sorted _, fun v => filter_sortJobsDesc v _⟩

/-! ## Claim C8 (idempotence of the per-posting pipeline) -/

theorem rank_job_title (ss : SkillSets) (j : Job) : (rank_job ss j).title = j.title := rfl

theorem rank_job_company (ss : SkillSets) (j : Job) : (rank_job ss j).company = j.company := rfl

theorem rank_job_location (ss : SkillSets) (j : Job) :
    (rank_job ss j).location = j.location := rfl

theorem rank_job_description (ss : SkillSets) (j : Job) :
    (rank_job ss j).description = j.description := rfl

theorem rank_job_job_type (ss : SkillSets) (j : Job) :
    (rank_job ss j).job_type = j.job_type := rfl

theorem rank_job_salary_min (ss : SkillSets) (j : Job) :
    (rank_job ss j).salary_min = j.salary_min := rfl

theorem rank_job_salary_max (ss : SkillSets) (j : Job) :
    (rank_job ss j).salary_max = j.salary_max := rfl

theorem rank_job_salary_interval (ss : SkillSets) (j : Job) :
    (rank_job ss j).salary_interval = j.salary_interval := rfl

theorem rank_job_noc_code (ss : SkillSets) (j : Job) :
    (rank_job ss j).noc_code = (resolveNoc j).1 := rfl

theorem rank_job_noc_description (ss : SkillSets) (j : Job) :
    (rank_job ss j).noc_description = (resolveNoc j).2 := rfl

/-- Re-running the NOC resolution on an already-resolved posting changes
nothing: a present code is kept, and a missing code re-guesses to the
same value. -/
theorem resolveNoc_rank_job (ss : SkillSets) (j : Job) :
    resolveNoc (rank_job ss j) = resolveNoc j := by
  show (if (rank_job ss j).noc_code == "" then guess_noc_from_title (rank_job ss j).title
      else ((rank_job ss j).noc_code, (rank_job ss j).noc_description)) = resolveNoc j
  rw [rank_job_title, rank_job_noc_code, rank_job_noc_description]
  by_cases h : j.noc_code == ""
  · have hj : resolveNoc j = guess_noc_from_title j.title := by
      unfold resolveNoc
      rw [if_pos h]
    rw [hj]
    by_cases h2 : (guess_noc_from_title j.title).1 == ""
    · rw [if_pos h2]
    · rw [if_neg h2]
  · have hj : resolveNoc j = (j.noc_code, j.noc_description) := by
      unfold resolveNoc
      rw [if_neg h]
    rw [hj]
    rw [if_neg h]

theorem score_interview_format_rank_job (ss : SkillSets) (j : Job) :
    score_interview_format (rank_job ss j) = score_interview_format j := by
  unfold score_interview_format
  rw [rank_job_title, rank_job_company, rank_job_description]

theorem calculate_success_score_rank_job (ss : SkillSets) (j : Job) :
    calculate_success_score (rank_job ss j) = calculate_success_score j := by
  unfold calculate_success_score
  rw [rank_job_title, rank_job_company, rank_job_description, rank_job_location]

theorem assign_tier_rank_job (ss : SkillSets) (j : Job) (sc : TierScores) :
    assign_tier (rank_job ss j) sc = assign_tier j sc := by
  unfold assign_tier stretchSignals quickwinSignals
  rw [rank_job_title, rank_job_company, rank_job_description, rank_job_job_type]

/-- C8: the per-posting pipeline is idempotent — scoring an
already-scored posting with the same taxonomy reproduces every derived
field (all six dimension scores, total, priority, tier, NOC fields,
eligibility flag, networking fields and both explanation maps) exactly,
and leaves the base fields untouched. -/
theorem claim_C8_idempotence (ss : SkillSets) (j : Job) :
    rank_job ss (rank_job ss j) = rank_job ss j := by
  conv_lhs => rw [rank_job]
  rw [rank_job_title, rank_job_company, rank_job_description, rank_job_location,
    rank_job_job_type, rank_job_salary_min, rank_job_salary_max, rank_job_salary_interval,
    resolveNoc_rank_job, score_interview_format_rank_job, calculate_success_score_rank_job,
    assign_tier_rank_job]
  conv_rhs => rw [rank_job]

/-! ## Floating-point error propagation for the composite total -/

/-- The unit roundoff of binary64: `2 ^ (-53)`, as a plain rational. -/
def EPS : ℚ := 1/9007199254740992

theorem EPS_pos : (0 : ℚ) < EPS := by norm_num [EPS]

theorem EPS_small : EPS ≤ 1/8000000000000000 := by norm_num [EPS]

/-- `fl_abs` restated with the explicit unit roundoff. -/
theorem fl_absE (x : ℚ) (hx : 0 ≤ x) : |fl x - x| ≤ x * EPS := by
  have h := fl_abs x hx
  have he : (2:ℚ)^(-(53:ℤ)) = EPS := by norm_num [EPS]
  rw [he] at h
  exact h

/-- One weighted product term `fl (fl s * W)` of the composite: error,
nonnegativity and a magnitude bound. -/
theorem prodTerm_err (s : ℤ) (hs0 : 0 ≤ s) (hs : s ≤ 100) (w W : ℚ)
    (hw0 : 0 < w) (hw : w ≤ 1/2) (hW : |W - w| ≤ w * EPS) :
    |fl (fl (s : ℚ) * W) - s * w| ≤ 152 * EPS
    ∧ 0 ≤ fl (fl (s : ℚ) * W)
    ∧ fl (fl (s : ℚ) * W) ≤ 100 * w + 1/2 := by
  have heps := EPS_pos
  have hepsv := EPS_small
  have hsq0 : (0 : ℚ) ≤ (s : ℚ) := by exact_mod_cast hs0
  have hsq : (s : ℚ) ≤ 100 := by exact_mod_cast hs
  have hfs := fl_absE (s : ℚ) hsq0
  have hfs0 : 0 ≤ fl (s : ℚ) := fl_nonneg _ hsq0
  have hsE : (s : ℚ) * EPS ≤ 100 * EPS :=
    mul_le_mul_of_nonneg_right hsq (le_of_lt heps)
  have hfsu : fl (s : ℚ) ≤ (s : ℚ) + (s : ℚ) * EPS := by
    linarith [(abs_le.mp hfs).2]
  have hfsu101 : fl (s : ℚ) ≤ 101 := by linarith
  have hW0 : 0 ≤ W := by
    have h1 := (abs_le.mp hW).1
    have h2 : w * EPS ≤ w * 1 := mul_le_mul_of_nonneg_left (by linarith) (le_of_lt hw0)
    linarith
  have hWu : W ≤ w + w * EPS := by linarith [(abs_le.mp hW).2]
  have hx0 : 0 ≤ fl (s : ℚ) * W := mul_nonneg hfs0 hW0
  -- magnitude of the pre-rounding product
  have hb : fl (s : ℚ) * W ≤ ((s : ℚ) + (s : ℚ) * EPS) * (w + w * EPS) := by
    apply mul_le_mul hfsu hWu hW0
    positivity
  have hexp : ((s : ℚ) + (s : ℚ) * EPS) * (w + w * EPS)
      = (s : ℚ) * w * (1 + EPS)^2 := by ring
  have hsquare : ((1:ℚ) + EPS)^2 ≤ 1 + 3 * EPS := by nlinarith [heps, hepsv]
  have hsw100 : (s : ℚ) * w ≤ 100 * w := mul_le_mul_of_nonneg_right hsq (le_of_lt hw0)
  have hswsq : (s : ℚ) * w * (1 + EPS)^2 ≤ 100 * w * (1 + EPS)^2 :=
    mul_le_mul_of_nonneg_right hsw100 (sq_nonneg _)
  have h100wE : 100 * w * (1 + EPS)^2 ≤ 100 * w + 150 * EPS := by
    have h1 : 100 * w * (1 + EPS)^2 ≤ 100 * w * (1 + 3 * EPS) := by
      apply mul_le_mul_of_nonneg_left hsquare
      linarith
    have h2 : 100 * w * (1 + 3 * EPS) = 100 * w + 100 * w * (3 * EPS) := by ring
    have h3 : 100 * w * (3 * EPS) ≤ 50 * (3 * EPS) := by
      apply mul_le_mul_of_nonneg_right (by linarith)
      positivity
    linarith
  have hxu : fl (s : ℚ) * W ≤ 100 * w + 150 * EPS := by
    rw [hexp] at hb
    linarith
  have hxu51 : fl (s : ℚ) * W ≤ 51 := by linarith
  have hfx := fl_absE (fl (s : ℚ) * W) hx0
  have hfx0 := fl_nonneg (fl (s : ℚ) * W) hx0
  have hfxE : (fl (s : ℚ) * W) * EPS ≤ 51 * EPS :=
    mul_le_mul_of_nonneg_right hxu51 (le_of_lt heps)
  -- error of the pre-rounding product against `s * w`
  have herr1 : |fl (s : ℚ) * W - (s : ℚ) * w| ≤ 201 * w * EPS := by
    have key : fl (s : ℚ) * W - (s : ℚ) * w
        = fl (s : ℚ) * (W - w) + w * (fl (s : ℚ) - (s : ℚ)) := by ring
    have hterm1 : fl (s : ℚ) * |W - w| ≤ 101 * (w * EPS) :=
      mul_le_mul hfsu101 hW (abs_nonneg _) (by norm_num)
    have hterm2 : w * |fl (s : ℚ) - (s : ℚ)| ≤ w * (100 * EPS) := by
      apply mul_le_mul_of_nonneg_left (by linarith) (le_of_lt hw0)
    calc |fl (s : ℚ) * W - (s : ℚ) * w|
        = |fl (s : ℚ) * (W - w) + w * (fl (s : ℚ) - (s : ℚ))| := by rw [key]
      _ ≤ |fl (s : ℚ) * (W - w)| + |w * (fl (s : ℚ) - (s : ℚ))| := abs_add _ _
      _ = fl (s : ℚ) * |W - w| + w * |fl (s : ℚ) - (s : ℚ)| := by
          rw [abs_mul, abs_mul, abs_of_nonneg hfs0, abs_of_pos hw0]
      _ ≤ 101 * (w * EPS) + w * (100 * EPS) := add_le_add hterm1 hterm2
      _ = 201 * w * EPS := by ring
  have hwEhalf : 201 * w * EPS ≤ 101 * EPS := by
    have h1 : 201 * w ≤ 101 := by linarith
    calc 201 * w * EPS = (201 * w) * EPS := by ring
      _ ≤ 101 * EPS := mul_le_mul_of_nonneg_right h1 (le_of_lt heps)
  refine ⟨?_, hfx0, ?_⟩
  · calc |fl (fl (s : ℚ) * W) - (s : ℚ) * w|
        ≤ |fl (fl (s : ℚ) * W) - fl (s : ℚ) * W| + |fl (s : ℚ) * W - (s : ℚ) * w| :=
          abs_sub_le _ _ _
      _ ≤ (fl (s : ℚ) * W) * EPS + 201 * w * EPS := add_le_add hfx herr1
      _ ≤ 51 * EPS + 101 * EPS := add_le_add hfxE hwEhalf
      _ ≤ 152 * EPS := by linarith
  · have h1 : fl (fl (s : ℚ) * W) ≤ fl (s : ℚ) * W + (fl (s : ℚ) * W) * EPS := by
      linarith [(abs_le.mp hfx).2]
    linarith

/-- One addition step of the composite chain: the rounding adds at most
`120 * EPS` of error for operands whose sum stays below 120. -/
theorem addStep_err (x y u v dx dy : ℚ) (hx0 : 0 ≤ x) (hy0 : 0 ≤ y)
    (hxy : x + y ≤ 120) (hxu : |x - u| ≤ dx) (hyv : |y - v| ≤ dy) :
    |fl (x + y) - (u + v)| ≤ dx + dy + 120 * EPS
    ∧ 0 ≤ fl (x + y)
    ∧ fl (x + y) ≤ x + y + 1 := by
  have heps := EPS_pos
  have hepsv := EPS_small
  have hs0 : 0 ≤ x + y := by linarith
  have hfa := fl_absE (x + y) hs0
  have hfa0 := fl_nonneg (x + y) hs0
  have hsE : (x + y) * EPS ≤ 120 * EPS := mul_le_mul_of_nonneg_right hxy (le_of_lt heps)
  refine ⟨?_, hfa0, ?_⟩
  · calc |fl (x + y) - (u + v)|
        ≤ |fl (x + y) - (x + y)| + |(x + y) - (u + v)| := abs_sub_le _ _ _
      _ ≤ (x + y) * EPS + (|x - u| + |y - v|) := by
          apply add_le_add hfa
          calc |(x + y) - (u + v)| = |(x - u) + (y - v)| := by
                rw [show (x + y) - (u + v) = (x - u) + (y - v) by ring]
            _ ≤ |x - u| + |y - v| := abs_add _ _
      _ ≤ dx + dy + 120 * EPS := by linarith
  · have := (abs_le.mp hfa).2
    linarith

/-- The error of the whole pre-rounding chain of the composite total
against the exact weighted sum, for dimension scores in `[0, 100]`. -/
theorem totalRaw_err (a b c d e f : ℤ)
    (ha0 : 0 ≤ a) (ha : a ≤ 100) (hb0 : 0 ≤ b) (hb : b ≤ 100)
    (hc0 : 0 ≤ c) (hc : c ≤ 100) (hd0 : 0 ≤ d) (hd : d ≤ 100)
    (he0 : 0 ≤ e) (he : e ≤ 100) (hf0 : 0 ≤ f) (hf : f ≤ 100) :
    |totalRaw a b c d e f
        - ((30*a + 25*b + 15*c + 10*d + 10*e + 10*f : ℤ) : ℚ) / 100| ≤ 1/1000
    ∧ 0 ≤ totalRaw a b c d e f
    ∧ totalRaw a b c d e f ≤ 100 + 1/1000 := by
  have heps := EPS_pos
  have hepsv := EPS_small
  have hWsk : |W_skills - 30/100| ≤ (30/100) * EPS := by
    have := fl_absE (30/100) (by norm_num)
    simpa [W_skills] using this
  have hWim : |W_immigration - 25/100| ≤ (25/100) * EPS := by
    have := fl_absE (25/100) (by norm_num)
    simpa [W_immigration] using this
  have hWiv : |W_interview - 15/100| ≤ (15/100) * EPS := by
    have := fl_absE (15/100) (by norm_num)
    simpa [W_interview] using this
  have hWsa : |W_salary - 10/100| ≤ (10/100) * EPS := by
    have := fl_absE (10/100) (by norm_num)
    simpa [W_salary] using this
  have hWco : |W_company - 10/100| ≤ (10/100) * EPS := by
    have := fl_absE (10/100) (by norm_num)
    simpa [W_company] using this
  have hWsu : |W_success - 10/100| ≤ (10/100) * EPS := by
    have := fl_absE (10/100) (by norm_num)
    simpa [W_success] using this
  have h1 := prodTerm_err a ha0 ha (30/100) W_skills (by norm_num) (by norm_num) hWsk
  have h2 := prodTerm_err b hb0 hb (25/100) W_immigration (by norm_num) (by norm_num) hWim
  have h3 := prodTerm_err c hc0 hc (15/100) W_interview (by norm_num) (by norm_num) hWiv
  have h4 := prodTerm_err d hd0 hd (10/100) W_salary (by norm_num) (by norm_num) hWsa
  have h5 := prodTerm_err e he0 he (10/100) W_company (by norm_num) (by norm_num) hWco
  have h6 := prodTerm_err f hf0 hf (10/100) W_success (by norm_num) (by norm_num) hWsu
  have hE1 : (0:ℚ) ≤ 152 * EPS := by positivity
  have hEsmall : 152 * EPS ≤ 1/50000000000000 := by
    rw [show EPS = 1/9007199254740992 from rfl]
    norm_num
  have s1 := addStep_err _ _ ((a:ℚ) * (30/100)) ((b:ℚ) * (25/100)) _ _
    h1.2.1 h2.2.1 (by linarith [h1.2.2, h2.2.2]) h1.1 h2.1
  have s2 := addStep_err _ _ ((a:ℚ) * (30/100) + (b:ℚ) * (25/100)) ((c:ℚ) * (15/100)) _ _
    s1.2.1 h3.2.1 (by linarith [s1.2.2, h1.2.2, h2.2.2, h3.2.2]) s1.1 h3.1
  have s3 := addStep_err _ _ ((a:ℚ) * (30/100) + (b:ℚ) * (25/100) + (c:ℚ) * (15/100))
    ((d:ℚ) * (10/100)) _ _
    s2.2.1 h4.2.1 (by linarith [s2.2.2, s1.2.2, h1.2.2, h2.2.2, h3.2.2, h4.2.2]) s2.1 h4.1
  have s4 := addStep_err _ _
    ((a:ℚ) * (30/100) + (b:ℚ) * (25/100) + (c:ℚ) * (15/100) + (d:ℚ) * (10/100))
    ((e:ℚ) * (10/100)) _ _
    s3.2.1 h5.2.1
    (by linarith [s3.2.2, s2.2.2, s1.2.2, h1.2.2, h2.2.2, h3.2.2, h4.2.2, h5.2.2]) s3.1 h5.1
  have s5 := addStep_err _ _
    ((a:ℚ) * (30/100) + (b:ℚ) * (25/100) + (c:ℚ) * (15/100) + (d:ℚ) * (10/100)
      + (e:ℚ) * (10/100))
    ((f:ℚ) * (10/100)) _ _
    s4.2.1 h6.2.1
    (by linarith [s4.2.2, s3.2.2, s2.2.2, s1.2.2, h1.2.2, h2.2.2, h3.2.2, h4.2.2, h5.2.2,
      h6.2.2]) s4.1 h6.1
  have hsum : ((a:ℚ) * (30/100) + (b:ℚ) * (25/100) + (c:ℚ) * (15/100) + (d:ℚ) * (10/100)
      + (e:ℚ) * (10/100) + (f:ℚ) * (10/100))
      = ((30*a + 25*b + 15*c + 10*d + 10*e + 10*f : ℤ) : ℚ) / 100 := by
    push_cast
    ring
  have hEtotal : 152 * EPS * 6 + 120 * EPS * 5 ≤ 1/1000 := by
    rw [show EPS = 1/9007199254740992 from rfl]
    norm_num
  refine ⟨?_, ?_, ?_⟩
  · show |totalRaw a b c d e f - _| ≤ 1/1000
    unfold totalRaw
    rw [← hsum]
    have := s5.1
    linarith [this]
  · exact s5.2.1
  · have hup := s5.2.2
    have hexact : ((a:ℚ) * (30/100) + (b:ℚ) * (25/100) + (c:ℚ) * (15/100)
        + (d:ℚ) * (10/100) + (e:ℚ) * (10/100) + (f:ℚ) * (10/100)) ≤ 100 := by
      have haq : (a:ℚ) ≤ 100 := by exact_mod_cast ha
      have hbq : (b:ℚ) ≤ 100 := by exact_mod_cast hb
      have hcq : (c:ℚ) ≤ 100 := by exact_mod_cast hc
      have hdq : (d:ℚ) ≤ 100 := by exact_mod_cast hd
      have heq : (e:ℚ) ≤ 100 := by exact_mod_cast he
      have hfq : (f:ℚ) ≤ 100 := by exact_mod_cast hf
      linarith
    show totalRaw a b c d e f ≤ 100 + 1/1000
    unfold totalRaw
    have h5s := s5.1
    have : |fl (fl (fl (fl (fl
        (fl (fl (a:ℚ) * W_skills) + fl (fl (b:ℚ) * W_immigration))
        + fl (fl (c:ℚ) * W_interview)) + fl (fl (d:ℚ) * W_salary))
        + fl (fl (e:ℚ) * W_company)) + fl (fl (f:ℚ) * W_success))
        - ((a:ℚ) * (30/100) + (b:ℚ) * (25/100) + (c:ℚ) * (15/100) + (d:ℚ) * (10/100)
          + (e:ℚ) * (10/100) + (f:ℚ) * (10/100))| ≤ 1/1000 := by
      linarith [s5.1]
    linarith [(abs_le.mp this).2]

/-- Away from exact ties (`k % 10 ≠ 5`), CPython decimal rounding of any
value within `1/1000` of `k/100` yields the ordinary nearest tenth,
which coincides with round-half-away-from-zero. -/
theorem pyRound1_no_tie (t : ℚ) (k : ℤ)
    (hmod : k % 10 ≠ 5) (ht : |t - (k : ℚ)/100| ≤ 1/1000) :
    pyRound1 t = ((⌊(k : ℚ)/10 + 1/2⌋ : ℤ) : ℚ) / 10 := by
  set q : ℤ := k / 10 with hq
  set r : ℤ := k % 10 with hr
  have hk : 10 * q + r = k := Int.ediv_add_emod k 10
  have hr0 : 0 ≤ r := Int.emod_nonneg k (by norm_num)
  have hr9 : r < 10 := Int.emod_lt_of_pos k (by norm_num)
  have hkq : (k : ℚ) = 10 * q + r := by exact_mod_cast hk.symm
  have h10t : |10 * t - (k : ℚ)/10| ≤ 1/100 := by
    have : 10 * t - (k : ℚ)/10 = 10 * (t - (k : ℚ)/100) := by ring
    rw [this, abs_mul]
    rw [show |(10 : ℚ)| = 10 by norm_num]
    linarith
  have hfloor : ⌊(k : ℚ)/10 + 1/2⌋ = if r ≤ 4 then q else q + 1 := by
    rw [hkq]
    have hrearr : ((10 : ℚ) * q + r) / 10 + 1/2 = ((r : ℚ)/10 + 1/2) + q := by ring
    rw [hrearr, Int.floor_add_int]
    by_cases hr4 : r ≤ 4
    · rw [if_pos hr4]
      have hrq0 : (0:ℚ) ≤ (r:ℚ) := by exact_mod_cast hr0
      have hrq4 : (r : ℚ) ≤ 4 := by exact_mod_cast hr4
      have hz : ⌊(r : ℚ)/10 + 1/2⌋ = 0 := by
        rw [Int.floor_eq_iff]
        push_cast
        constructor <;> linarith
      omega
    · rw [if_neg hr4]
      have hr5 : 5 ≤ r := by omega
      have hrq5 : (5:ℚ) ≤ (r:ℚ) := by exact_mod_cast hr5
      have hrq9 : (r:ℚ) ≤ 9 := by exact_mod_cast (by omega : r ≤ 9)
      have hz : ⌊(r : ℚ)/10 + 1/2⌋ = 1 := by
        rw [Int.floor_eq_iff]
        push_cast
        constructor <;> linarith
      omega
  have hrhe : rhe (10 * t) = if r ≤ 4 then q else q + 1 := by
    apply rhe_eq_of_abs_lt
    by_cases hr4 : r ≤ 4
    · rw [if_pos hr4]
      have h1 : (k : ℚ)/10 - q = (r : ℚ)/10 := by
        rw [hkq]; ring
      have hrq0 : (0:ℚ) ≤ (r:ℚ) := by exact_mod_cast hr0
      have hrq4 : (r:ℚ) ≤ 4 := by exact_mod_cast hr4
      have h2 : |10 * t - (q : ℚ)| ≤ |10 * t - (k : ℚ)/10| + |(k : ℚ)/10 - (q:ℚ)| :=
        abs_sub_le _ _ _
      rw [h1] at h2
      have h3 : |(r : ℚ)/10| ≤ 4/10 := by
        rw [abs_of_nonneg (by linarith)]
        linarith
      calc |10 * t - (q : ℚ)| ≤ 1/100 + 4/10 := by linarith [h2, h10t, h3]
        _ < 1/2 := by norm_num
    · rw [if_neg hr4]
      have hr5 : 5 ≤ r := by omega
      have hr6 : 6 ≤ r := by omega
      have hrq6 : (6:ℚ) ≤ (r:ℚ) := by exact_mod_cast hr6
      have hrq9 : (r:ℚ) ≤ 9 := by exact_mod_cast (by omega : r ≤ 9)
      have h1 : (k : ℚ)/10 - ((q : ℚ) + 1) = ((r : ℚ) - 10)/10 := by
        rw [hkq]; ring
      have h2 : |10 * t - ((q : ℚ) + 1)| ≤ |10 * t - (k : ℚ)/10| + |(k : ℚ)/10 - ((q:ℚ) + 1)| :=
        abs_sub_le _ _ _
      rw [h1] at h2
      have h3 : |((r : ℚ) - 10)/10| ≤ 4/10 := by
        rw [abs_le]
        constructor <;> linarith
      have : |10 * t - ((q : ℚ) + 1)| ≤ 1/100 + 4/10 := by linarith [h2, h10t, h3]
      calc |10 * t - (((q + 1 : ℤ)) : ℚ)| = |10 * t - ((q : ℚ) + 1)| := by push_cast; rfl
        _ ≤ 1/100 + 4/10 := this
        _ < 1/2 := by norm_num
  unfold pyRound1
  rw [hrhe, hfloor]

theorem fl_one : fl (1 : ℚ) = 1 := by
  have hm : rhe ((1:ℚ) * 2 ^ ((52:ℤ) - 0)) = 2^52 := by
    rw [show (1:ℚ) * 2 ^ ((52:ℤ) - 0) = ((2^52 : ℤ) : ℚ) by push_cast; norm_num]
    exact rhe_intCast _
  have h := fl_eval 1 0 (2^52) (by norm_num) (by norm_num) (by norm_num) hm
  rw [h]
  push_cast
  norm_num

theorem fl_quarter : fl (1/4 : ℚ) = 1/4 := by
  have hm : rhe ((1/4 : ℚ) * 2 ^ ((52:ℤ) - (-2))) = 2^52 := by
    rw [show (1/4:ℚ) * 2 ^ ((52:ℤ) - (-2)) = ((2^52 : ℤ) : ℚ) by push_cast; norm_num]
    exact rhe_intCast _
  have h := fl_eval (1/4) (-2) (2^52) (by norm_num) (by norm_num) (by norm_num) hm
  rw [h]
  push_cast
  norm_num

/-! ## Claim C6 (composite scorer and rounding mode) -/

/-- Round half away from zero to one decimal place — the rounding mode
the claim asserts for the composite total. -/
def roundHalfAway1 (x : ℚ) : ℚ :=
  if 0 ≤ x then ((⌊10 * x + 1/2⌋ : ℤ) : ℚ) / 10
  else -(((⌊10 * (-x) + 1/2⌋ : ℤ) : ℚ) / 10)

/-- The composite total as claim C6 words it: exact weighted sum,
rounded to one decimal half-away-from-zero. -/
def claimC6Total (a b c d e f : ℤ) : ℚ :=
  roundHalfAway1 ((a:ℚ) * (30/100) + (b:ℚ) * (25/100) + (c:ℚ) * (15/100)
    + (d:ℚ) * (10/100) + (e:ℚ) * (10/100) + (f:ℚ) * (10/100))

/-- C6 counterexample: at dimension scores (0, 1, 0, 0, 0, 0) the exact
weighted sum is 0.25, a representable tie; the claimed
half-away-from-zero rounding gives 0.3, but the code (CPython `round`,
ties to even on the binary value) returns 0.2. -/
theorem claim_C6_counterexample :
    computeTotal 0 1 0 0 0 0 = 1/5 ∧ claimC6Total 0 1 0 0 0 0 = 3/10 := by
  have hW : W_immigration = 1/4 := by
    rw [W_immigration, show (25/100 : ℚ) = 1/4 by norm_num, fl_quarter]
  constructor
  · show pyRound1 (totalRaw 0 1 0 0 0 0) = 1/5
    have hraw : totalRaw 0 1 0 0 0 0 = 1/4 := by
      unfold totalRaw
      rw [hW]
      norm_num [fl_zero, fl_one, fl_quarter]
    rw [hraw]
    unfold pyRound1
    rw [show (10:ℚ) * (1/4) = 5/2 by norm_num]
    rw [show rhe (5/2 : ℚ) = 2 from by norm_num [rhe]]
    norm_num
  · unfold claimC6Total roundHalfAway1
    rw [if_pos (by norm_num)]
    norm_num

/-- C6 (amended): for dimension scores in `[0, 100]` whose weighted sum
is not an exact decimal tie (`(30a+25b+15c+10d+10e+10f) % 10 ≠ 5`), the
total equals the exact weighted sum rounded to one decimal place — there
is no tie, so this coincides with round-half-away-from-zero; at exact
ties the code follows CPython float rounding (ties to even on the binary
value, e.g. 0.25 → 0.2), not half-away-from-zero.  The priority label is
derived from the total by the claimed thresholds (≥75 HIGH, ≥55 MEDIUM,
else LOW). -/
theorem claim_C6_composite (a b c d e f : ℤ)
    (ha0 : 0 ≤ a) (ha : a ≤ 100) (hb0 : 0 ≤ b) (hb : b ≤ 100)
    (hc0 : 0 ≤ c) (hc : c ≤ 100) (hd0 : 0 ≤ d) (hd : d ≤ 100)
    (he0 : 0 ≤ e) (he : e ≤ 100) (hf0 : 0 ≤ f) (hf : f ≤ 100)
    (hmod : (30*a + 25*b + 15*c + 10*d + 10*e + 10*f) % 10 ≠ 5) :
    computeTotal a b c d e f = claimC6Total a b c d e f
    ∧ ∀ (ss : SkillSets) (j : Job),
        (rank_job ss j).priority = computePriority (rank_job ss j).score_total := by
  constructor
  · have herr := (totalRaw_err a b c d e f ha0 ha hb0 hb hc0 hc hd0 hd he0 he hf0 hf).1
    have hround := pyRound1_no_tie (totalRaw a b c d e f)
      (30*a + 25*b + 15*c + 10*d + 10*e + 10*f) hmod herr
    show pyRound1 (totalRaw a b c d e f) = claimC6Total a b c d e f
    rw [hround]
    unfold claimC6Total roundHalfAway1
    have hsum : ((a:ℚ) * (30/100) + (b:ℚ) * (25/100) + (c:ℚ) * (15/100)
        + (d:ℚ) * (10/100) + (e:ℚ) * (10/100) + (f:ℚ) * (10/100))
        = ((30*a + 25*b + 15*c + 10*d + 10*e + 10*f : ℤ) : ℚ) / 100 := by
      push_cast
      ring
    rw [hsum]
    have haq : (0:ℚ) ≤ (a:ℚ) := by exact_mod_cast ha0
    have hbq : (0:ℚ) ≤ (b:ℚ) := by exact_mod_cast hb0
    have hcq : (0:ℚ) ≤ (c:ℚ) := by exact_mod_cast hc0
    have hdq : (0:ℚ) ≤ (d:ℚ) := by exact_mod_cast hd0
    have heq : (0:ℚ) ≤ (e:ℚ) := by exact_mod_cast he0
    have hfq : (0:ℚ) ≤ (f:ℚ) := by exact_mod_cast hf0
    have hk0 : (0:ℚ) ≤ ((30*a + 25*b + 15*c + 10*d + 10*e + 10*f : ℤ) : ℚ) / 100 := by
      rw [← hsum]
      positivity
    rw [if_pos hk0]
    rw [show (10:ℚ) * (((30*a + 25*b + 15*c + 10*d + 10*e + 10*f : ℤ) : ℚ) / 100)
      = ((30*a + 25*b + 15*c + 10*d + 10*e + 10*f : ℤ) : ℚ) / 10 by ring]
  · intro ss j
    rfl

/-- C6 witness at scores (80, 70, 60, 50, 90, 40): the weighted sum 68.5
is not a tie, and the theorem computes the total as 68.5. -/
theorem claim_C6_witness :
    ((30*80 + 25*70 + 15*60 + 10*50 + 10*90 + 10*40 : ℤ) % 10 ≠ 5)
    ∧ computeTotal 80 70 60 50 90 40 = claimC6Total 80 70 60 50 90 40 :=
  ⟨by decide,
   (claim_C6_composite 80 70 60 50 90 40 (by norm_num) (by norm_num) (by norm_num)
     (by norm_num) (by norm_num) (by norm_num) (by norm_num) (by norm_num)
     (by norm_num) (by norm_num) (by norm_num) (by norm_num) (by decide)).1⟩

/-- The composite total stays inside `[0, 100]` for dimension scores in
`[0, 100]`. -/
theorem computeTotal_bounds (a b c d e f : ℤ)
    (ha0 : 0 ≤ a) (ha : a ≤ 100) (hb0 : 0 ≤ b) (hb : b ≤ 100)
    (hc0 : 0 ≤ c) (hc : c ≤ 100) (hd0 : 0 ≤ d) (hd : d ≤ 100)
    (he0 : 0 ≤ e) (he : e ≤ 100) (hf0 : 0 ≤ f) (hf : f ≤ 100) :
    0 ≤ computeTotal a b c d e f ∧ computeTotal a b c d e f ≤ 100 := by
  obtain ⟨herr, hr0, hru⟩ := totalRaw_err a b c d e f ha0 ha hb0 hb hc0 hc hd0 hd he0 he hf0 hf
  unfold computeTotal pyRound1
  constructor
  · have h10 : (0:ℚ) ≤ 10 * totalRaw a b c d e f := by linarith
    have hz := rhe_nonneg _ h10
    have : (0:ℚ) ≤ (rhe (10 * totalRaw a b c d e f) : ℚ) := by exact_mod_cast hz
    linarith
  · have habs := rhe_abs (10 * totalRaw a b c d e f)
    have hup : (rhe (10 * totalRaw a b c d e f) : ℚ) ≤ 10 * totalRaw a b c d e f + 1/2 := by
      linarith [(abs_le.mp habs).2]
    have hlt : (rhe (10 * totalRaw a b c d e f) : ℚ) < 1001 := by linarith
    have hint : rhe (10 * totalRaw a b c d e f) < 1001 := by exact_mod_cast hlt
    have hint1000 : rhe (10 * totalRaw a b c d e f) ≤ 1000 := by omega
    have : (rhe (10 * totalRaw a b c d e f) : ℚ) ≤ 1000 := by exact_mod_cast hint1000
    linarith

/-! ## Claim C4 (score bounds invariant) -/

theorem clampMinMax_bounds (x : ℤ) : 0 ≤ min 100 (max 0 x) ∧ min 100 (max 0 x) ≤ 100 :=
  ⟨le_min (by norm_num) (le_max_left _ _), min_le_left _ _⟩

theorem clampMaxMin_bounds (x : ℤ) : 0 ≤ max 0 (min 100 x) ∧ max 0 (min 100 x) ≤ 100 :=
  ⟨le_max_left _ _, max_le (by norm_num) (min_le_left _ _)⟩

theorem score_skills_match_bounds (title description : String) (ss : SkillSets) :
    0 ≤ score_skills_match title description ss
    ∧ score_skills_match title description ss ≤ 100 := by
  simp only [score_skills_match]
  split
  · norm_num
  · split
    · norm_num
    · exact clampMinMax_bounds _

theorem score_immigration_fit_bounds (title description location job_type noc_code : String) :
    0 ≤ score_immigration_fit title description location job_type noc_code
    ∧ score_immigration_fit title description location job_type noc_code ≤ 100 := by
  simp only [score_immigration_fit]
  exact clampMinMax_bounds _

theorem tierChain_bounds (x : ℚ) :
    0 ≤ (if 145000 ≤ x then (100:ℤ) else if 120000 ≤ x then 90 else if 100000 ≤ x then 80
      else if 85000 ≤ x then 65 else if 70000 ≤ x then 50 else if 55000 ≤ x then 30 else 15)
    ∧ (if 145000 ≤ x then (100:ℤ) else if 120000 ≤ x then 90 else if 100000 ≤ x then 80
      else if 85000 ≤ x then 65 else if 70000 ≤ x then 50 else if 55000 ≤ x then 30
      else 15) ≤ 100 := by
  split_ifs <;> norm_num

theorem score_salary_bounds (salary_min salary_max : ℚ) (interval : String) :
    0 ≤ score_salary salary_min salary_max interval
    ∧ score_salary salary_min salary_max interval ≤ 100 := by
  by_cases h : salary_min = 0 ∧ salary_max = 0
  · rw [score_salary, if_pos h]
    norm_num
  · rw [score_salary, if_neg h]
    exact tierChain_bounds _

theorem score_company_bounds (company description : String) :
    0 ≤ score_company company description ∧ score_company company description ≤ 100 := by
  simp only [score_company]
  split_ifs <;> norm_num

theorem score_interview_format_bounds (j : Job) :
    0 ≤ (score_interview_format j).1 ∧ (score_interview_format j).1 ≤ 100 := by
  simp only [score_interview_format]
  exact clampMaxMin_bounds _

theorem calculate_success_score_bounds (j : Job) :
    0 ≤ (calculate_success_score j).1 ∧ (calculate_success_score j).1 ≤ 100 := by
  simp only [calculate_success_score]
  exact clampMaxMin_bounds _

/-- C4: on every posting, each of the six dimension scores attached by
`rank_job` lies in `[0, 100]`, and the composite total — a weighted
combination with weights summing to 1 of six values in `[0, 100]` — also
lies in `[0, 100]`. -/
theorem claim_C4_score_bounds (ss : SkillSets) (j : Job) :
    (0 ≤ (rank_job ss j).score_skills ∧ (rank_job ss j).score_skills ≤ 100)
    ∧ (0 ≤ (rank_job ss j).score_immigration ∧ (rank_job ss j).score_immigration ≤ 100)
    ∧ (0 ≤ (rank_job ss j).score_salary ∧ (rank_job ss j).score_salary ≤ 100)
    ∧ (0 ≤ (rank_job ss j).score_company ∧ (rank_job ss j).score_company ≤ 100)
    ∧ (0 ≤ (rank_job ss j).score_interview ∧ (rank_job ss j).score_interview ≤ 100)
    ∧ (0 ≤ (rank_job ss j).score_success ∧ (rank_job ss j).score_success ≤ 100)
    ∧ (0 ≤ (rank_job ss j).score_total ∧ (rank_job ss j).score_total ≤ 100) := by
  have h1 := score_skills_match_bounds j.title j.description ss
  have h2 := score_immigration_fit_bounds j.title j.description j.location j.job_type
    (resolveNoc j).1
  have h3 := score_salary_bounds j.salary_min j.salary_max j.salary_interval
  have h4 := score_company_bounds j.company j.description
  have h5 := score_interview_format_bounds j
  have h6 := calculate_success_score_bounds j
  have htot := computeTotal_bounds _ _ _ _ _ _
    h1.1 h1.2 h2.1 h2.2 h5.1 h5.2 h3.1 h3.2 h4.1 h4.2 h6.1 h6.2
  exact ⟨h1, h2, h3, h4, h5, h6, htot⟩

/-! ## Claim C5 (skills-match scorer): floating-point error analysis -/

theorem lit07_err : |lit07 - 7/10| ≤ (7/10) * EPS := by
  have := fl_absE (7/10) (by norm_num)
  simpa [lit07] using this

theorem lit04_err : |lit04 - 2/5| ≤ (2/5) * EPS := by
  have := fl_absE (2/5) (by norm_num)
  simpa [lit04] using this

theorem lit01_err : |lit01 - 1/10| ≤ (1/10) * EPS := by
  have := fl_absE (1/10) (by norm_num)
  simpa [lit01] using this

/-- One coefficient product `fl (fl n * C)` of the skills numerator, with
the count bounded by `T`. -/
theorem skillsProd_err (n : ℕ) (T : ℚ) (hT1 : 1 ≤ T) (hnT : (n:ℚ) ≤ T)
    (c C : ℚ) (hc0 : 0 < c) (hc1 : c ≤ 1) (hC : |C - c| ≤ c * EPS) :
    |fl (fl (n:ℚ) * C) - (n:ℚ) * c| ≤ 5 * T * EPS ∧ 0 ≤ fl (fl (n:ℚ) * C) := by
  have heps := EPS_pos
  have hepsv := EPS_small
  have hσ0 : (0:ℚ) ≤ (n:ℚ) := by positivity
  have hfs := fl_absE (n:ℚ) hσ0
  have hfs0 : 0 ≤ fl (n:ℚ) := fl_nonneg _ hσ0
  have hσE : (n:ℚ) * EPS ≤ T * EPS := mul_le_mul_of_nonneg_right hnT (le_of_lt heps)
  have hfsu : fl (n:ℚ) ≤ (n:ℚ) + (n:ℚ) * EPS := by linarith [(abs_le.mp hfs).2]
  have hcE1 : c * EPS ≤ c * 1 := mul_le_mul_of_nonneg_left (by linarith) (le_of_lt hc0)
  have hC0 : 0 ≤ C := by linarith [(abs_le.mp hC).1]
  have hCu : C ≤ c + c * EPS := by linarith [(abs_le.mp hC).2]
  have hx0 : 0 ≤ fl (n:ℚ) * C := mul_nonneg hfs0 hC0
  have hb : fl (n:ℚ) * C ≤ ((n:ℚ) + (n:ℚ) * EPS) * (c + c * EPS) := by
    apply mul_le_mul hfsu hCu hC0
    positivity
  have hexp : ((n:ℚ) + (n:ℚ) * EPS) * (c + c * EPS) = (n:ℚ) * c * (1 + EPS)^2 := by ring
  have hnc : (n:ℚ) * c ≤ T := by
    have := mul_le_mul hnT hc1 (le_of_lt hc0) (by linarith)
    linarith
  have hnc0 : 0 ≤ (n:ℚ) * c := mul_nonneg hσ0 (le_of_lt hc0)
  have hsq2 : ((1:ℚ) + EPS)^2 ≤ 2 := by nlinarith [heps, hepsv]
  have hx2T : fl (n:ℚ) * C ≤ 2 * T := by
    have h1 : (n:ℚ) * c * (1 + EPS)^2 ≤ T * 2 := by
      apply mul_le_mul hnc hsq2 (sq_nonneg _) (by linarith)
    rw [hexp] at hb
    linarith
  have hfx := fl_absE (fl (n:ℚ) * C) hx0
  have hfx0 := fl_nonneg (fl (n:ℚ) * C) hx0
  have hfxE : (fl (n:ℚ) * C) * EPS ≤ 2 * T * EPS :=
    mul_le_mul_of_nonneg_right hx2T (le_of_lt heps)
  have herr1 : |fl (n:ℚ) * C - (n:ℚ) * c| ≤ 3 * T * EPS := by
    have key : fl (n:ℚ) * C - (n:ℚ) * c
        = fl (n:ℚ) * (C - c) + c * (fl (n:ℚ) - (n:ℚ)) := by ring
    have hfs2T : fl (n:ℚ) ≤ 2 * T := by
      have hne : (n:ℚ) * EPS ≤ (n:ℚ) * 1 :=
        mul_le_mul_of_nonneg_left (by linarith) hσ0
      linarith
    have hterm1 : fl (n:ℚ) * |C - c| ≤ 2 * T * (c * EPS) :=
      mul_le_mul hfs2T hC (abs_nonneg _) (by linarith)
    have hterm2 : c * |fl (n:ℚ) - (n:ℚ)| ≤ c * (T * EPS) := by
      apply mul_le_mul_of_nonneg_left (by linarith) (le_of_lt hc0)
    have hc1a : 2 * T * (c * EPS) ≤ 2 * T * EPS := by
      have : c * EPS ≤ EPS := by nlinarith
      apply mul_le_mul_of_nonneg_left this (by linarith)
    have hc1b : c * (T * EPS) ≤ T * EPS := by
      nlinarith [mul_pos (lt_of_lt_of_le one_pos hT1) heps]
    calc |fl (n:ℚ) * C - (n:ℚ) * c|
        = |fl (n:ℚ) * (C - c) + c * (fl (n:ℚ) - (n:ℚ))| := by rw [key]
      _ ≤ |fl (n:ℚ) * (C - c)| + |c * (fl (n:ℚ) - (n:ℚ))| := abs_add _ _
      _ = fl (n:ℚ) * |C - c| + c * |fl (n:ℚ) - (n:ℚ)| := by
          rw [abs_mul, abs_mul, abs_of_nonneg hfs0, abs_of_pos hc0]
      _ ≤ 2 * T * (c * EPS) + c * (T * EPS) := add_le_add hterm1 hterm2
      _ ≤ 2 * T * EPS + T * EPS := add_le_add hc1a hc1b
      _ = 3 * T * EPS := by ring
  refine ⟨?_, hfx0⟩
  calc |fl (fl (n:ℚ) * C) - (n:ℚ) * c|
      ≤ |fl (fl (n:ℚ) * C) - fl (n:ℚ) * C| + |fl (n:ℚ) * C - (n:ℚ) * c| := abs_sub_le _ _ _
    _ ≤ (fl (n:ℚ) * C) * EPS + 3 * T * EPS := add_le_add hfx herr1
    _ ≤ 2 * T * EPS + 3 * T * EPS := by linarith
    _ = 5 * T * EPS := by ring

/-- One addition step of the skills numerator. -/
theorem skillsAdd_err (x y u v dx dy T : ℚ) (hx0 : 0 ≤ x) (hy0 : 0 ≤ y)
    (hxy : x + y ≤ 2 * T) (hxu : |x - u| ≤ dx) (hyv : |y - v| ≤ dy) :
    |fl (x + y) - (u + v)| ≤ dx + dy + 2 * T * EPS ∧ 0 ≤ fl (x + y) := by
  have heps := EPS_pos
  have hs0 : 0 ≤ x + y := by linarith
  have hfa := fl_absE (x + y) hs0
  have hfa0 := fl_nonneg (x + y) hs0
  have hsE : (x + y) * EPS ≤ 2 * T * EPS := mul_le_mul_of_nonneg_right hxy (le_of_lt heps)
  refine ⟨?_, hfa0⟩
  calc |fl (x + y) - (u + v)|
      ≤ |fl (x + y) - (x + y)| + |(x + y) - (u + v)| := abs_sub_le _ _ _
    _ ≤ (x + y) * EPS + (|x - u| + |y - v|) := by
        apply add_le_add hfa
        calc |(x + y) - (u + v)| = |(x - u) + (y - v)| := by
              rw [show (x + y) - (u + v) = (x - u) + (y - v) by ring]
          _ ≤ |x - u| + |y - v| := abs_add _ _
    _ ≤ dx + dy + 2 * T * EPS := by linarith

/-- Error of the skills float numerator against the exact coefficient
sum, when every count is at most `T` and the counts sum to at most `T`. -/
theorem skillsNum_err (s m e w : ℕ) (T : ℚ) (hT1 : 1 ≤ T)
    (hs : (s:ℚ) ≤ T) (hm : (m:ℚ) ≤ T) (he : (e:ℚ) ≤ T) (hw : (w:ℚ) ≤ T)
    (hsum : (s:ℚ) + (m:ℚ) + (e:ℚ) + (w:ℚ) ≤ T) :
    |skillsNum s m e w
        - ((s:ℚ) * 1 + (m:ℚ) * (7/10) + (e:ℚ) * (2/5) + (w:ℚ) * (1/10))| ≤ 24 * T * EPS
    ∧ 0 ≤ skillsNum s m e w
    ∧ skillsNum s m e w ≤ 2 * T := by
  have heps := EPS_pos
  have hepsv := EPS_small
  have hs0 : (0:ℚ) ≤ (s:ℚ) := by positivity
  have hm0 : (0:ℚ) ≤ (m:ℚ) := by positivity
  have he0 : (0:ℚ) ≤ (e:ℚ) := by positivity
  have hw0 : (0:ℚ) ≤ (w:ℚ) := by positivity
  have hTEPS : 24 * (T * EPS) ≤ T := by
    have h1 : T * EPS ≤ T * (1/24) := by
      apply mul_le_mul_of_nonneg_left (by linarith) (by linarith)
    linarith
  have hTE0 : 0 ≤ T * EPS := by positivity
  have h1 := skillsProd_err s T hT1 hs 1 1 (by norm_num) (by norm_num)
    (by rw [show (1:ℚ) - 1 = 0 by ring]; rw [abs_zero]; positivity)
  have h2 := skillsProd_err m T hT1 hm (7/10) lit07 (by norm_num) (by norm_num) lit07_err
  have h3 := skillsProd_err e T hT1 he (2/5) lit04 (by norm_num) (by norm_num) lit04_err
  have h4 := skillsProd_err w T hT1 hw (1/10) lit01 (by norm_num) (by norm_num) lit01_err
  have hp1u : fl (fl (s:ℚ) * 1) ≤ (s:ℚ) * 1 + 5 * T * EPS := by linarith [(abs_le.mp h1.1).2]
  have hp2u : fl (fl (m:ℚ) * lit07) ≤ (m:ℚ) * (7/10) + 5 * T * EPS := by
    linarith [(abs_le.mp h2.1).2]
  have hp3u : fl (fl (e:ℚ) * lit04) ≤ (e:ℚ) * (2/5) + 5 * T * EPS := by
    linarith [(abs_le.mp h3.1).2]
  have hp4u : fl (fl (w:ℚ) * lit01) ≤ (w:ℚ) * (1/10) + 5 * T * EPS := by
    linarith [(abs_le.mp h4.1).2]
  have a1 := skillsAdd_err _ _ ((s:ℚ) * 1) ((m:ℚ) * (7/10)) _ _ T
    h1.2 h2.2 (by nlinarith) h1.1 h2.1
  have ht1u : fl (fl (fl (s:ℚ) * 1) + fl (fl (m:ℚ) * lit07))
      ≤ (s:ℚ) * 1 + (m:ℚ) * (7/10) + 12 * T * EPS := by
    linarith [(abs_le.mp a1.1).2]
  have a2 := skillsAdd_err _ _ ((s:ℚ) * 1 + (m:ℚ) * (7/10)) ((e:ℚ) * (2/5)) _ _ T
    a1.2 h3.2 (by nlinarith) a1.1 h3.1
  have ht2u : fl (fl (fl (fl (s:ℚ) * 1) + fl (fl (m:ℚ) * lit07)) + fl (fl (e:ℚ) * lit04))
      ≤ (s:ℚ) * 1 + (m:ℚ) * (7/10) + (e:ℚ) * (2/5) + 19 * T * EPS := by
    linarith [(abs_le.mp a2.1).2]
  have hfinal : |skillsNum s m e w
      - ((s:ℚ) * 1 + (m:ℚ) * (7/10) + (e:ℚ) * (2/5) + (w:ℚ) * (1/10))| ≤ 24 * T * EPS := by
    unfold skillsNum
    calc |fl (fl (fl (fl (s:ℚ) * 1) + fl (fl (m:ℚ) * lit07)) + fl (fl (e:ℚ) * lit04))
          + fl (fl (w:ℚ) * lit01)
          - ((s:ℚ) * 1 + (m:ℚ) * (7/10) + (e:ℚ) * (2/5) + (w:ℚ) * (1/10))|
        = |(fl (fl (fl (fl (s:ℚ) * 1) + fl (fl (m:ℚ) * lit07)) + fl (fl (e:ℚ) * lit04))
            - ((s:ℚ) * 1 + (m:ℚ) * (7/10) + (e:ℚ) * (2/5)))
          + (fl (fl (w:ℚ) * lit01) - (w:ℚ) * (1/10))| := by
          rw [show fl (fl (fl (fl (s:ℚ) * 1) + fl (fl (m:ℚ) * lit07)) + fl (fl (e:ℚ) * lit04))
              + fl (fl (w:ℚ) * lit01)
              - ((s:ℚ) * 1 + (m:ℚ) * (7/10) + (e:ℚ) * (2/5) + (w:ℚ) * (1/10))
            = (fl (fl (fl (fl (s:ℚ) * 1) + fl (fl (m:ℚ) * lit07)) + fl (fl (e:ℚ) * lit04))
              - ((s:ℚ) * 1 + (m:ℚ) * (7/10) + (e:ℚ) * (2/5)))
              + (fl (fl (w:ℚ) * lit01) - (w:ℚ) * (1/10)) by ring]
      _ ≤ |fl (fl (fl (fl (s:ℚ) * 1) + fl (fl (m:ℚ) * lit07)) + fl (fl (e:ℚ) * lit04))
            - ((s:ℚ) * 1 + (m:ℚ) * (7/10) + (e:ℚ) * (2/5))|
          + |fl (fl (w:ℚ) * lit01) - (w:ℚ) * (1/10)| := abs_add _ _
      _ ≤ 24 * T * EPS := by linarith [a2.1, h4.1]
  refine ⟨hfinal, ?_, ?_⟩
  · unfold skillsNum
    have := a2.2
    have := h4.2
    linarith
  · have h2T := (abs_le.mp hfinal).2
    linarith [hTEPS]

/-- Error of the whole skills float expression against the exact value
`(10s + 7m + 4e + w) * 10 / total`. -/
theorem skillsRaw_err (s m e w total : ℕ) (htot : total = s + m + e + w)
    (h1 : 1 ≤ total) :
    |skillsRaw s m e w total
        - ((10*s + 7*m + 4*e + w : ℕ) : ℚ) * 10 / ((total : ℕ) : ℚ)| ≤ 1/1000000000000 := by
  have heps := EPS_pos
  have hepsv := EPS_small
  set T : ℚ := ((total : ℕ) : ℚ) with hTdef
  have hT1 : 1 ≤ T := by rw [hTdef]; exact_mod_cast h1
  have hT0 : 0 < T := by linarith
  have hTne : T ≠ 0 := ne_of_gt hT0
  have hsleq : (s:ℚ) ≤ T := by
    have h : s ≤ total := by omega
    rw [hTdef]
    exact_mod_cast h
  have hmleq : (m:ℚ) ≤ T := by
    have h : m ≤ total := by omega
    rw [hTdef]
    exact_mod_cast h
  have heleq : (e:ℚ) ≤ T := by
    have h : e ≤ total := by omega
    rw [hTdef]
    exact_mod_cast h
  have hwleq : (w:ℚ) ≤ T := by
    have h : w ≤ total := by omega
    rw [hTdef]
    exact_mod_cast h
  have hsumT : (s:ℚ) + (m:ℚ) + (e:ℚ) + (w:ℚ) ≤ T := by
    have h : ((s + m + e + w : ℕ) : ℚ) = T := by
      rw [hTdef]
      exact_mod_cast congrArg (fun n => ((n : ℕ) : ℚ)) htot.symm
    push_cast at h
    linarith
  have hnum := skillsNum_err s m e w T hT1 hsleq hmleq heleq hwleq hsumT
  set ν : ℚ := (s:ℚ) * 1 + (m:ℚ) * (7/10) + (e:ℚ) * (2/5) + (w:ℚ) * (1/10) with hνdef
  have hν0 : 0 ≤ ν := by positivity
  have hνT : ν ≤ T := by
    have hs0 : (0:ℚ) ≤ (s:ℚ) := by positivity
    have hm0 : (0:ℚ) ≤ (m:ℚ) := by positivity
    have he0 : (0:ℚ) ≤ (e:ℚ) := by positivity
    have hw0 : (0:ℚ) ≤ (w:ℚ) := by positivity
    rw [hνdef]
    linarith
  have hTE0 : 0 ≤ T * EPS := by positivity
  have hTE26 : 26 * (T * EPS) ≤ T := by
    have : T * EPS ≤ T * (1/26) := mul_le_mul_of_nonneg_left (by linarith) (by linarith)
    linarith
  -- `t3 = fl (skillsNum ...)`
  have ht3 := fl_absE (skillsNum s m e w) hnum.2.1
  have ht30 := fl_nonneg (skillsNum s m e w) hnum.2.1
  have ht3E : skillsNum s m e w * EPS ≤ 2 * T * EPS :=
    mul_le_mul_of_nonneg_right hnum.2.2 (le_of_lt heps)
  have ht3err : |fl (skillsNum s m e w) - ν| ≤ 26 * T * EPS := by
    calc |fl (skillsNum s m e w) - ν|
        ≤ |fl (skillsNum s m e w) - skillsNum s m e w| + |skillsNum s m e w - ν| :=
          abs_sub_le _ _ _
      _ ≤ skillsNum s m e w * EPS + 24 * T * EPS := add_le_add ht3 hnum.1
      _ ≤ 26 * T * EPS := by linarith
  have ht3u : fl (skillsNum s m e w) ≤ 2 * T := by
    have := (abs_le.mp ht3err).2
    linarith
  -- `fl T`
  have hflT := fl_absE T (le_of_lt hT0)
  have hflT0 := fl_nonneg T (le_of_lt hT0)
  have hTEhalf : T * EPS ≤ T * (1/2) := mul_le_mul_of_nonneg_left (by linarith) (by linarith)
  have hflTlow : T / 2 ≤ fl T := by
    have := (abs_le.mp hflT).1
    linarith
  have hflTpos : 0 < fl T := by linarith
  have hflTne : fl T ≠ 0 := ne_of_gt hflTpos
  -- the quotient
  have hkey : fl (skillsNum s m e w) / fl T - ν / T
      = (T * (fl (skillsNum s m e w) - ν) + ν * (T - fl T)) / (fl T * T) := by
    field_simp
    ring
  have hnumer : |T * (fl (skillsNum s m e w) - ν) + ν * (T - fl T)|
      ≤ 27 * T^2 * EPS := by
    have hA : |T * (fl (skillsNum s m e w) - ν)| ≤ T * (26 * T * EPS) := by
      rw [abs_mul, abs_of_pos hT0]
      exact mul_le_mul_of_nonneg_left ht3err (le_of_lt hT0)
    have hB : |ν * (T - fl T)| ≤ T * (T * EPS) := by
      rw [abs_mul]
      have h1 : |ν| ≤ T := by rw [abs_of_nonneg hν0]; exact hνT
      have h2 : |T - fl T| ≤ T * EPS := by
        rw [abs_sub_comm]
        exact hflT
      exact mul_le_mul h1 h2 (abs_nonneg _) (le_of_lt hT0)
    calc |T * (fl (skillsNum s m e w) - ν) + ν * (T - fl T)|
        ≤ |T * (fl (skillsNum s m e w) - ν)| + |ν * (T - fl T)| := abs_add _ _
      _ ≤ T * (26 * T * EPS) + T * (T * EPS) := add_le_add hA hB
      _ = 27 * T^2 * EPS := by ring
  have hdenom : T^2 / 2 ≤ fl T * T := by
    have : (T / 2) * T ≤ fl T * T := mul_le_mul_of_nonneg_right hflTlow (le_of_lt hT0)
    calc T^2 / 2 = (T / 2) * T := by ring
      _ ≤ fl T * T := this
  have hdenompos : (0:ℚ) < T^2 / 2 := by positivity
  have hquot : |fl (skillsNum s m e w) / fl T - ν / T| ≤ 54 * EPS := by
    rw [hkey, abs_div, abs_of_pos (by positivity : (0:ℚ) < fl T * T)]
    have hd := div_le_div₀ (by positivity : (0:ℚ) ≤ 27 * T^2 * EPS) hnumer hdenompos hdenom
    have heq : 27 * T^2 * EPS / (T^2 / 2) = 54 * EPS := by
      field_simp
      ring
    linarith [hd, heq.le, heq.ge]
  have hA0 : 0 ≤ fl (skillsNum s m e w) / fl T := div_nonneg ht30 hflT0
  have hνT1 : ν / T ≤ 1 := (div_le_one hT0).mpr hνT
  have hνT0 : 0 ≤ ν / T := div_nonneg hν0 (le_of_lt hT0)
  have hE54 : 54 * EPS ≤ 1 := by
    rw [show EPS = 1/9007199254740992 from rfl]
    norm_num
  have hAu : fl (skillsNum s m e w) / fl T ≤ 2 := by
    have := (abs_le.mp hquot).2
    linarith
  -- `q = fl (t3 / fl T)`
  have hq := fl_absE _ hA0
  have hq0 := fl_nonneg _ hA0
  have hqE : fl (skillsNum s m e w) / fl T * EPS ≤ 2 * EPS :=
    mul_le_mul_of_nonneg_right hAu (le_of_lt heps)
  have hqerr : |fl (fl (skillsNum s m e w) / fl T) - ν / T| ≤ 56 * EPS := by
    calc |fl (fl (skillsNum s m e w) / fl T) - ν / T|
        ≤ |fl (fl (skillsNum s m e w) / fl T) - fl (skillsNum s m e w) / fl T|
          + |fl (skillsNum s m e w) / fl T - ν / T| := abs_sub_le _ _ _
      _ ≤ fl (skillsNum s m e w) / fl T * EPS + 54 * EPS := add_le_add hq hquot
      _ ≤ 56 * EPS := by linarith
  have hqu : fl (fl (skillsNum s m e w) / fl T) ≤ 2 := by
    have := (abs_le.mp hqerr).2
    have hE56 : 56 * EPS ≤ 1 := by
      rw [show EPS = 1/9007199254740992 from rfl]
      norm_num
    linarith
  -- `r = fl (q * 100)`
  have hx0 : 0 ≤ fl (fl (skillsNum s m e w) / fl T) * 100 := by positivity
  have hr := fl_absE _ hx0
  have hxu : fl (fl (skillsNum s m e w) / fl T) * 100 ≤ 200 := by linarith
  have hxE : fl (fl (skillsNum s m e w) / fl T) * 100 * EPS ≤ 200 * EPS :=
    mul_le_mul_of_nonneg_right hxu (le_of_lt heps)
  have hrerr : |fl (fl (fl (skillsNum s m e w) / fl T) * 100) - 100 * (ν / T)| ≤ 5800 * EPS := by
    have hmid : |fl (fl (skillsNum s m e w) / fl T) * 100 - 100 * (ν / T)| ≤ 5600 * EPS := by
      have : fl (fl (skillsNum s m e w) / fl T) * 100 - 100 * (ν / T)
          = 100 * (fl (fl (skillsNum s m e w) / fl T) - ν / T) := by ring
      rw [this, abs_mul, show |(100:ℚ)| = 100 by norm_num]
      linarith [mul_le_mul_of_nonneg_left hqerr (by norm_num : (0:ℚ) ≤ 100)]
    calc |fl (fl (fl (skillsNum s m e w) / fl T) * 100) - 100 * (ν / T)|
        ≤ |fl (fl (fl (skillsNum s m e w) / fl T) * 100)
            - fl (fl (skillsNum s m e w) / fl T) * 100|
          + |fl (fl (skillsNum s m e w) / fl T) * 100 - 100 * (ν / T)| := abs_sub_le _ _ _
      _ ≤ 200 * EPS + 5600 * EPS := add_le_add (le_trans hr hxE) hmid
      _ = 5800 * EPS := by ring
  have htarget : 100 * (ν / T) = ((10*s + 7*m + 4*e + w : ℕ) : ℚ) * 10 / T := by
    rw [hνdef]
    push_cast
    field_simp
    ring
  show |fl (fl (fl (skillsNum s m e w) / fl T) * 100)
      - ((10*s + 7*m + 4*e + w : ℕ) : ℚ) * 10 / T| ≤ 1/1000000000000
  rw [← htarget]
  have hEfin : 5800 * EPS ≤ 1/1000000000000 := by
    rw [show EPS = 1/9007199254740992 from rfl]
    norm_num
  linarith

/-- Integer-rounding analogue of the no-tie lemma: when `20N/T` is never
an odd integer (no half-integer tie at `10N/T`), CPython rounding of any
value within `10^-12` of `10N/T` is the ordinary nearest integer. -/
theorem pyRoundInt_no_tie (r : ℚ) (N T : ℤ) (hT1 : 1 ≤ T) (hTbig : T ≤ 4294967296)
    (htie : ∀ jj : ℤ, 20 * N ≠ (2*jj + 1) * T)
    (hr : |r - 10 * (N:ℚ) / (T:ℚ)| ≤ 1/1000000000000) :
    pyRoundInt r = ⌊10 * (N:ℚ) / (T:ℚ) + 1/2⌋ := by
  have hTq : (0:ℚ) < (T:ℚ) := by exact_mod_cast lt_of_lt_of_le one_pos hT1
  have hTqne : (T:ℚ) ≠ 0 := ne_of_gt hTq
  have h2T : (0:ℚ) < 2 * (T:ℚ) := by linarith
  set v : ℚ := 10 * (N:ℚ) / (T:ℚ) with hv
  set n : ℤ := ⌊v + 1/2⌋ with hn
  have hfl : (n:ℚ) ≤ v + 1/2 := Int.floor_le _
  have hfu : v + 1/2 < n + 1 := Int.lt_floor_add_one _
  have hmul : (v + 1/2) * (2 * (T:ℚ)) = 20 * (N:ℚ) + (T:ℚ) := by
    rw [hv]
    field_simp
    ring
  have hlowQ : (n:ℚ) * (2 * (T:ℚ)) ≤ 20 * (N:ℚ) + (T:ℚ) := by
    rw [← hmul]
    exact mul_le_mul_of_nonneg_right hfl (le_of_lt h2T)
  have hhighQ : 20 * (N:ℚ) + (T:ℚ) < ((n:ℚ) + 1) * (2 * (T:ℚ)) := by
    rw [← hmul]
    exact mul_lt_mul_of_pos_right hfu h2T
  have hlowInt : T * (2*n - 1) ≤ 20 * N := by
    have hq : ((T * (2*n - 1) : ℤ) : ℚ) ≤ ((20 * N : ℤ) : ℚ) := by
      push_cast
      linarith
    exact_mod_cast hq
  have hhighInt : 20 * N < T * (2*n + 1) := by
    have hq : ((20 * N : ℤ) : ℚ) < ((T * (2*n + 1) : ℤ) : ℚ) := by
      push_cast
      linarith
    exact_mod_cast hq
  have hlow2 : T * (2*n - 1) + 1 ≤ 20 * N := by
    have hne := htie (n - 1)
    have : (2*(n-1) + 1) * T = T * (2*n - 1) := by ring
    rw [this] at hne
    omega
  have hhigh2 : 20 * N ≤ T * (2*n + 1) - 1 := by omega
  have hTq1 : (1:ℚ) ≤ (T:ℚ) := by exact_mod_cast hT1
  have hverr : |v - (n:ℚ)| ≤ 1/2 - 1/(2 * (T:ℚ)) := by
    have hform : v - (n:ℚ) = ((20 * N - 2 * n * T : ℤ) : ℚ) / (2 * (T:ℚ)) := by
      rw [hv]
      push_cast
      field_simp
      ring
    have habs : |((20 * N - 2 * n * T : ℤ) : ℚ)| ≤ (T:ℚ) - 1 := by
      have h1 : ((20 * N - 2 * n * T : ℤ) : ℚ) ≤ (T:ℚ) - 1 := by
        have : (20 * N - 2 * n * T : ℤ) ≤ T - 1 := by
          have := hhigh2
          nlinarith [hhigh2]
        exact_mod_cast this
      have h2 : -((T:ℚ) - 1) ≤ ((20 * N - 2 * n * T : ℤ) : ℚ) := by
        have : -(T - 1) ≤ (20 * N - 2 * n * T : ℤ) := by nlinarith [hlow2]
        exact_mod_cast this
      rw [abs_le]
      exact ⟨h2, h1⟩
    rw [hform, abs_div, abs_of_pos h2T]
    have hd := div_le_div₀ (by linarith : (0:ℚ) ≤ (T:ℚ) - 1) habs h2T (le_refl _)
    have heq : ((T:ℚ) - 1) / (2 * (T:ℚ)) = 1/2 - 1/(2 * (T:ℚ)) := by
      field_simp
    linarith [hd, heq.le, heq.ge]
  have hTqbig : (T:ℚ) ≤ 4294967296 := by exact_mod_cast hTbig
  have hgap : 1/8589934592 ≤ 1/(2 * (T:ℚ)) := by
    apply one_div_le_one_div_of_le h2T
    linarith
  have hfin : |r - (n:ℚ)| < 1/2 := by
    have h1 : |r - (n:ℚ)| ≤ |r - v| + |v - (n:ℚ)| := abs_sub_le _ _ _
    have h2 : (1:ℚ)/1000000000000 < 1/8589934592 := by norm_num
    linarith
  show rhe r = n
  exact rhe_eq_of_abs_lt r n hfin

/-- The skills score as claim C5 words it (for the no-tie regime):
`round((strong*1.0 + moderate*0.7 + emerging*0.4 + weak*0.1)/total*100)`
with ordinary nearest rounding, clamped to `[0, 100]`. -/
def claimC5Score (s m e w : ℕ) : ℤ :=
  min 100 (max 0
    ⌊((s:ℚ) * 1 + (m:ℚ) * (7/10) + (e:ℚ) * (4/10) + (w:ℚ) * (1/10))
      / ((s + m + e + w : ℕ) : ℚ) * 100 + 1/2⌋)

/-- C5: the skills-match scorer returns exactly 50 when the surface text is
blank or no taxonomy phrase occurs in it; otherwise — whenever the exact
ratio is not a rounding tie (no integer `jj` with `20N = (2jj+1)·total`,
where `N = 10·strong + 7·moderate + 4·emerging + weak`) and the match
counts are not astronomically large — it returns the claimed formula
`round((strong·1.0 + moderate·0.7 + emerging·0.4 + weak·0.1)/total·100)`
clamped to `[0, 100]`, with nearest rounding. -/
theorem claim_C5_skills (title description : String) (ss : SkillSets) (s m e w : ℕ)
    (hs : s = countMatches ss.strong (pyLower (title ++ " " ++ description)))
    (hm : m = countMatches ss.moderate (pyLower (title ++ " " ++ description)))
    (he : e = countMatches ss.emerging (pyLower (title ++ " " ++ description)))
    (hw : w = countMatches ss.weak (pyLower (title ++ " " ++ description))) :
    ((isBlank (pyLower (title ++ " " ++ description)) = true ∨ s + m + e + w = 0) →
      score_skills_match title description ss = 50)
    ∧ (isBlank (pyLower (title ++ " " ++ description)) = false →
      1 ≤ s + m + e + w →
      s + m + e + w ≤ 4294967296 →
      (∀ jj : ℤ, 20 * ((10*s + 7*m + 4*e + w : ℕ) : ℤ)
        ≠ (2*jj + 1) * ((s + m + e + w : ℕ) : ℤ)) →
      score_skills_match title description ss = claimC5Score s m e w) := by
  constructor
  · intro hor
    simp only [score_skills_match]
    rcases hor with hb | h0
    · rw [if_pos hb]
    · rw [hs, hm, he, hw] at h0
      rw [h0]
      simp
  · intro hb h1 hbig htie
    simp only [score_skills_match]
    rw [hb]
    rw [if_neg (by simp)]
    rw [← hs, ← hm, ← he, ← hw]
    rw [if_neg (by omega)]
    have hraw := skillsRaw_err s m e w (s + m + e + w) rfl h1
    have hT1 : (1:ℤ) ≤ ((s + m + e + w : ℕ) : ℤ) := by exact_mod_cast h1
    have hTbig : ((s + m + e + w : ℕ) : ℤ) ≤ 4294967296 := by exact_mod_cast hbig
    have hcast : |skillsRaw s m e w (s + m + e + w)
        - 10 * ((((10*s + 7*m + 4*e + w : ℕ) : ℤ) : ℚ))
          / ((((s + m + e + w : ℕ) : ℤ) : ℚ))| ≤ 1/1000000000000 := by
      have heq : 10 * ((((10*s + 7*m + 4*e + w : ℕ) : ℤ) : ℚ))
          / ((((s + m + e + w : ℕ) : ℤ) : ℚ))
          = (((10*s + 7*m + 4*e + w : ℕ)) : ℚ) * 10 / (((s + m + e + w : ℕ)) : ℚ) := by
        push_cast
        ring
      rw [heq]
      exact hraw
    have hround := pyRoundInt_no_tie _ _ _ hT1 hTbig htie hcast
    rw [hround]
    unfold claimC5Score
    have hTne : ((s + m + e + w : ℕ) : ℚ) ≠ 0 := by
      have h0 : (0:ℚ) < ((s + m + e + w : ℕ) : ℚ) := by exact_mod_cast h1
      linarith
    have hTne2 : ((((s + m + e + w : ℕ) : ℤ)) : ℚ) ≠ 0 := by
      have h0 : (0:ℚ) < ((((s + m + e + w : ℕ) : ℤ)) : ℚ) := by exact_mod_cast h1
      linarith
    have hq : 10 * ((((10*s + 7*m + 4*e + w : ℕ) : ℤ) : ℚ))
        / ((((s + m + e + w : ℕ) : ℤ) : ℚ))
        = ((s:ℚ) * 1 + (m:ℚ) * (7/10) + (e:ℚ) * (4/10) + (w:ℚ) * (1/10))
          / ((s + m + e + w : ℕ) : ℚ) * 100 := by
      rw [div_mul_eq_mul_div]
      rw [div_eq_div_iff hTne2 hTne]
      push_cast
      ring
    rw [hq]

/-- Concrete check for C5: a single strong match and nothing else scores 100,
through the actual float pipeline. -/
theorem claim_C5_witness :
    isBlank (pyLower ("python developer" ++ " " ++ "")) = false
    ∧ (1:ℕ) = countMatches ["python"] (pyLower ("python developer" ++ " " ++ ""))
    ∧ (0:ℕ) = countMatches ["sql"] (pyLower ("python developer" ++ " " ++ ""))
    ∧ score_skills_match "python developer" ""
        ({ strong := ["python"], moderate := ["sql"], emerging := ["sql"],
           weak := ["sql"] } : SkillSets) = 100 := by
  refine ⟨by decide, by decide, by decide, ?_⟩
  have h := (claim_C5_skills "python developer" "" 
      ({ strong := ["python"], moderate := ["sql"], emerging := ["sql"],
         weak := ["sql"] } : SkillSets) 1 0 0 0
      (by decide) (by decide) (by decide) (by decide)).2
      (by decide) (by decide) (by decide) (by intro jj; omega)
  rw [h]
  rw [show claimC5Score 1 0 0 0
      = min 100 (max 0 ⌊((1:ℚ) * 1 + 0 * (7/10) + 0 * (4/10) + 0 * (1/10))
        / ((1:ℚ)) * 100 + 1/2⌋) by norm_num [claimC5Score]]
  norm_num
